import Mathlib

/-!
# psnr.c: global PSNR of two raw YUV 4:2:0 clips

A shallow embedding of `third_party/src/psnr.c` and the properties of its
specification.

Modelling conventions
* `int` values are integers wrapped to 32 bits by `wrap32`, also where the C
  arithmetic overflows; `long` is 64 bits (LP64) and `size_t` is 64 bits
  (`toSizeT`). The division `/` and the remainder `%` of C truncate
  (`Int.tdiv`, `Int.tmod`); a remainder by 0 stops the run.
* A byte is a `Fin 256`; a file is the list of its bytes; an open stream is a
  file together with its read cursor.
* The `double` accumulator `total_sq_error` only ever holds non-negative
  integers, so it is a `Nat`; every addition is rounded to the nearest double
  by `roundDouble` (53-bit significand, ties to even).
* Inside `mse2psnr` a finite double is the rational number it denotes and the
  arithmetic is exact; `log10` of the C library is a parameter of the
  environment, so every statement holds for every implementation of it.
* The environment (`World`) answers the library calls: `stat`, `fopen`,
  `calloc`. The calls made by a run are recorded, in order, in its trace.
* `get_file_size` returns `st.st_size` without looking at the result of `stat`.
  After a failed `stat` the field is uninitialised: it holds what its stack slot
  held before the call. The two calls of `main` (lines 77-78) follow one another
  with the same frame layout, so the second call finds what the first one left;
  what the first call finds is a parameter of the environment.
-/

namespace Psnr

/-! ## Machine integers -/

/-- Conversion of an integer to a 32-bit signed `int` (two's complement). -/
def wrap32 (x : Int) : Int := (x + 2 ^ 31) % 2 ^ 32 - 2 ^ 31

/-- Conversion of an `int` to the 64-bit unsigned `size_t`. -/
def toSizeT (x : Int) : Nat := (x % 2 ^ 64).toNat

def LONG_MAX : Int := 2 ^ 63 - 1

def LONG_MIN : Int := -(2 ^ 63)

/-! ## Status codes (lines 15-24) -/

def MAX_PSNR : ℚ := 100

def STATUS_OK : Int := 0

def STATUS_USAGE_ERROR : Int := -1

def STATUS_FILE_SIZE_ERROR : Int := -2

def STATUS_FILE_OPEN_ERROR : Int := -3

def STATUS_ARGS_ERROR : Int := -4

def STATUS_ALLOC_ERROR : Int := -5

/-! ## `strtol` of the C library, base 10 -/

/-- White space of the C locale: space, and the controls 9 to 13. -/
def isspace (c : Char) : Bool := c.toNat = 32 || (9 ≤ c.toNat && c.toNat ≤ 13)

def isdigit (c : Char) : Bool := 48 ≤ c.toNat && c.toNat ≤ 57

/-- Value of the longest prefix of decimal digits, continuing from `acc`. -/
def digitsValue : Nat → List Char → Nat
  | acc, [] => acc
  | acc, c :: cs => if isdigit c then digitsValue (acc * 10 + (c.toNat - 48)) cs else acc

/-- The call `strtol(s, NULL, 10)`: skip white space, read an optional sign and
the longest run of digits (none gives 0), saturate at the range of `long`. -/
def strtol (s : String) : Int :=
  let cs := s.toList.dropWhile isspace
  match cs with
  | [] => 0
  | c :: rest =>
    if c.toNat = 45 then max (-(digitsValue 0 rest : Int)) LONG_MIN
    else if c.toNat = 43 then min (digitsValue 0 rest : Int) LONG_MAX
    else min (digitsValue 0 cs : Int) LONG_MAX

/-! ## Double precision -/

/-- The double nearest to the natural number `n`, ties to even: exact below
`2^53`, above it a multiple of the spacing `2^e` of the binade of `n`. -/
def roundDouble (n : Nat) : Nat :=
  if n < 2 ^ 53 then n
  else
    let e := Nat.log2 n - 52
    let q := n / 2 ^ e
    let r := n % 2 ^ e
    if 2 * r < 2 ^ e then q * 2 ^ e
    else if 2 ^ e < 2 * r then (q + 1) * 2 ^ e
    else if q % 2 = 0 then q * 2 ^ e
    else (q + 1) * 2 ^ e

/-- The function `mse2psnr` (lines 34-46). -/
def mse2psnr (log10 : ℚ → ℚ) (samples peak mse : ℚ) : ℚ :=
  let psnr := if mse > 0 then 10 * log10 (peak * peak * samples / mse) else MAX_PSNR
  if psnr > MAX_PSNR then MAX_PSNR else psnr

/-! ## Environment, streams and the trace of library calls -/

abbrev Byte := Fin 256

/-- What the run obtains from its environment. -/
structure World where
  /-- The call `stat(path, &st)`: `some size` when it succeeds and stores the
  length of the file in `st.st_size`; `none` when it fails and stores nothing. -/
  stat : String → Option Int
  /-- What the stack slot of `st.st_size` holds when `get_file_size` is entered
  for the first time: the field is not initialised, so it is whatever is there. -/
  stack : Int
  /-- Contents of the file served by `fopen(path, "rb")`; `none`: the open fails. -/
  fopen : String → Option (List Byte)
  /-- Whether the allocation of `frame0` (index 0) and `frame1` (index 1) succeeds. -/
  calloc_ok : Nat → Bool
  /-- The function `log10` of the C library on finite doubles. -/
  log10 : ℚ → ℚ

/-- An open stream: the bytes of the file and the read cursor. -/
structure Stream where
  data : List Byte
  pos : Nat

inductive Event where
  | strtol (arg : String)
  | stat (path : String)
  | fopen (path : String) (ok : Bool)
  | calloc (size : Nat) (ok : Bool)
  | fread (file : Nat) (requested returned : Nat)
  | mse2psnr (samples : Int) (mse : Nat)
  | free (frame : Nat)
  | fclose (file : Nat)
  deriving DecidableEq, Repr

/-- The field `st.st_size` of `get_file_size` after the call of `stat` (lines
29-30), where `slot` is what the uninitialised field held on entry: a successful
call overwrites it, a failed call leaves it as it was. -/
def st_size (w : World) (filename : String) (slot : Int) : Int :=
  match w.stat filename with
  | some size => size
  | none => slot

/-- The function `get_file_size` (lines 28-32): the result of `stat` is not
looked at, and `st.st_size`, a 64-bit length, is returned converted to `int`. -/
def get_file_size (w : World) (filename : String) (slot : Int) : Int :=
  wrap32 (st_size w filename slot)

/-- Line 77, `size0 = get_file_size(argv[1])`: the first call finds in
`st.st_size` what the stack held before. -/
def fileSize0 (w : World) (argv : List String) : Int :=
  get_file_size w (argv.getD 1 "") w.stack

/-- Line 78, `size1 = get_file_size(argv[2])`: the second call has its `st` in the
stack slot of the first, so it finds in `st.st_size` what the first call left. -/
def fileSize1 (w : World) (argv : List String) : Int :=
  get_file_size w (argv.getD 2 "") (st_size w (argv.getD 1 "") w.stack)

/-- The call `fread(buf, 1, n, stream)`: the bytes delivered (at most `n`, fewer
only at the end of the file) and the stream with its cursor advanced by their
number. -/
def fread (s : Stream) (n : Nat) : List Byte × Stream :=
  let chunk := (s.data.drop s.pos).take n
  (chunk, { s with pos := s.pos + chunk.length })

/-! ## The frame loop (lines 119-131) -/

/-- One step of the inner loop: `diff = *ptr1 - *ptr0; total_sq_error += diff * diff`. -/
def addSqDiff (total_sq_error : Nat) (p : Byte × Byte) : Nat :=
  let diff : Int := (p.2.val : Int) - (p.1.val : Int)
  roundDouble (total_sq_error + (diff * diff).toNat)

/-- The inner `for` loop (lines 125-129) over the bytes `0 .. frame_size - 1` of
the two frame buffers. -/
def frameError (frame_size : Int) (frame0 frame1 : List Byte) (total_sq_error : Nat) : Nat :=
  ((frame0.zip frame1).take frame_size.toNat).foldl addSqDiff total_sq_error

/-- The variables the `while` loop changes. -/
structure LoopState where
  number_of_frames : Int
  total_sq_error : Nat
  file0 : Stream
  file1 : Stream
  trace : List Event

/-- The `while` loop, by recursion on `max_frames - number_of_frames`: the test
`number_of_frames < max_frames` fails exactly when that count is 0. The two
reads are short-circuited as in the source: the second stream is not read when
the first read is short, and a short read still moves the cursor. -/
def frameLoopAux (frame_size : Int) : Nat → LoopState → LoopState
  | 0, s => s
  | remaining + 1, s =>
    let r0 := fread s.file0 (toSizeT frame_size)
    let t0 := s.trace ++ [Event.fread 0 (toSizeT frame_size) r0.1.length]
    if r0.1.length = toSizeT frame_size then
      let r1 := fread s.file1 (toSizeT frame_size)
      let t1 := t0 ++ [Event.fread 1 (toSizeT frame_size) r1.1.length]
      if r1.1.length = toSizeT frame_size then
        frameLoopAux frame_size remaining
          { number_of_frames := s.number_of_frames + 1
            total_sq_error := frameError frame_size r0.1 r1.1 s.total_sq_error
            file0 := r0.2
            file1 := r1.2
            trace := t1 }
      else { s with file0 := r0.2, file1 := r1.2, trace := t1 }
    else { s with file0 := r0.2, trace := t0 }

def frameLoop (frame_size max_frames : Int) (s : LoopState) : LoopState :=
  frameLoopAux frame_size (max_frames - s.number_of_frames).toNat s

/-! ## `main` (lines 49-146) -/

/-- What a run leaves behind. -/
structure Result where
  /-- Value returned by `main`; `none` when the run is stopped by the division
  by zero in `size0 % frame_size`. -/
  return_status : Option Int
  /-- The values printed on standard output, each by `"%.3lf\n"`. -/
  stdout : List ℚ
  /-- The text written to standard error. -/
  stderr : String
  /-- The library calls, in order. -/
  trace : List Event
  /-- Final value of the local `number_of_frames`. -/
  number_of_frames : Int
  /-- Final value of the local `total_sq_error`. -/
  total_sq_error : Nat
  /-- Final cursors of the two streams, when they were opened. -/
  cursor0 : Option Nat
  cursor1 : Option Nat

/-- The code after the label `end` (lines 139-145): release what is held. -/
def cleanup (frame0 frame1 file0_ptr file1_ptr : Bool) : List Event :=
  (if frame0 then [Event.free 0] else []) ++ (if frame1 then [Event.free 1] else [])
    ++ (if file0_ptr then [Event.fclose 0] else [])
    ++ (if file1_ptr then [Event.fclose 1] else [])

/-- An exit through `goto end` before the frame loop. -/
def fail (return_status : Int) (stderr : String) (trace : List Event)
    (frame0 frame1 file0_ptr file1_ptr : Bool) : Result :=
  { return_status := some return_status
    stdout := []
    stderr := stderr
    trace := trace ++ cleanup frame0 frame1 file0_ptr file1_ptr
    number_of_frames := 0
    total_sq_error := 0
    cursor0 := if file0_ptr then some 0 else none
    cursor1 := if file1_ptr then some 0 else none }

/-- The arguments `width`, `height` (lines 67-68) and `max_frames` (line 117):
`strtol` of `argv[3]`, `argv[4]`, `argv[5]`, converted from `long` to `int`. -/
def parseWidth (argv : List String) : Int := wrap32 (strtol (argv.getD 3 ""))

def parseHeight (argv : List String) : Int := wrap32 (strtol (argv.getD 4 ""))

def parseMaxFrames (argv : List String) : Int := wrap32 (strtol (argv.getD 5 ""))

/-- Line 75: `frame_size = width * height * 3 / 2` in `int` arithmetic, the
division truncating. -/
def frameSize (width height : Int) : Int :=
  Int.tdiv (wrap32 (wrap32 (width * height) * 3)) 2

/-- Lines 133-145: report the PSNR when a frame was processed, release
everything, return `STATUS_OK`. -/
def report (w : World) (frame_size : Int) (s : LoopState) : Result :=
  let samples := wrap32 (s.number_of_frames * frame_size)
  { return_status := some STATUS_OK
    stdout :=
      if s.number_of_frames > 0 then
        [mse2psnr w.log10 (samples : ℚ) 255 (s.total_sq_error : ℚ)]
      else []
    stderr := ""
    trace := s.trace
      ++ (if s.number_of_frames > 0 then [Event.mse2psnr samples s.total_sq_error] else [])
      ++ cleanup true true true true
    number_of_frames := s.number_of_frames
    total_sq_error := s.total_sq_error
    cursor0 := some s.file0.pos
    cursor1 := some s.file1.pos }

def main (w : World) (argv : List String) : Result :=
  let argc := argv.length
  if argc < 6 then
    fail STATUS_USAGE_ERROR
      ("Usage: " ++ argv.getD 0 "(null)"
        ++ " <yuv_file1> <yuv_file2> <width> <height> <max_frames>\n")
      [] false false false false
  else
    let width := parseWidth argv
    let height := parseHeight argv
    let t := [Event.strtol (argv.getD 3 ""), Event.strtol (argv.getD 4 "")]
    if width < 1 ∨ height < 1 then
      fail STATUS_ARGS_ERROR
        ("ERROR: invalid frame size " ++ toString width ++ "x" ++ toString height ++ ".\n")
        t false false false false
    else
      let frame_size := frameSize width height
      let size0 := fileSize0 w argv
      let size1 := fileSize1 w argv
      let t := t ++ [Event.stat (argv.getD 1 ""), Event.stat (argv.getD 2 "")]
      if size0 ≤ 0 ∨ size1 ≤ 0 then
        fail STATUS_FILE_SIZE_ERROR "ERROR: input file size exceeds 2GB limit.\n"
          t false false false false
      else if size0 ≠ size1 then
        fail STATUS_FILE_SIZE_ERROR
          ("ERROR: input files must be same size and have only full frames (file sizes:"
            ++ toString size0 ++ ", " ++ toString size1 ++ ").\n")
          t false false false false
      else if frame_size = 0 then
        { return_status := none, stdout := [], stderr := "", trace := t,
          number_of_frames := 0, total_sq_error := 0, cursor0 := none, cursor1 := none }
      else if Int.tmod size0 frame_size ≠ 0 then
        fail STATUS_FILE_SIZE_ERROR
          ("ERROR: input files must be same size and have only full frames (file sizes:"
            ++ toString size0 ++ ", " ++ toString size1 ++ ").\n")
          t false false false false
      else
        match w.fopen (argv.getD 1 "") with
        | none =>
          fail STATUS_FILE_OPEN_ERROR
            ("ERROR: unable to open input file " ++ argv.getD 1 "" ++ ".\n")
            (t ++ [Event.fopen (argv.getD 1 "") false]) false false false false
        | some data0 =>
          let t := t ++ [Event.fopen (argv.getD 1 "") true]
          match w.fopen (argv.getD 2 "") with
          | none =>
            fail STATUS_FILE_OPEN_ERROR
              ("ERROR: unable to open input file " ++ argv.getD 2 "" ++ ".\n")
              (t ++ [Event.fopen (argv.getD 2 "") false]) false false true false
          | some data1 =>
            let t := t ++ [Event.fopen (argv.getD 2 "") true]
            if w.calloc_ok 0 = false then
              fail STATUS_ALLOC_ERROR "ERROR: unable to allocate memory.\n"
                (t ++ [Event.calloc (toSizeT frame_size) false]) false false true true
            else
              let t := t ++ [Event.calloc (toSizeT frame_size) true]
              if w.calloc_ok 1 = false then
                fail STATUS_ALLOC_ERROR "ERROR: unable to allocate memory.\n"
                  (t ++ [Event.calloc (toSizeT frame_size) false]) true false true true
              else
                let t := t ++ [Event.calloc (toSizeT frame_size) true]
                let max_frames := parseMaxFrames argv
                let t := t ++ [Event.strtol (argv.getD 5 "")]
                report w frame_size
                  (frameLoop frame_size max_frames
                    { number_of_frames := 0, total_sq_error := 0,
                      file0 := { data := data0, pos := 0 },
                      file1 := { data := data1, pos := 0 }, trace := t })

/-! ## Runs that reach the frame loop -/

/-- The trace of a run up to the frame loop. -/
def setupTrace (argv : List String) : List Event :=
  [Event.strtol (argv.getD 3 ""), Event.strtol (argv.getD 4 ""),
   Event.stat (argv.getD 1 ""), Event.stat (argv.getD 2 ""),
   Event.fopen (argv.getD 1 "") true, Event.fopen (argv.getD 2 "") true,
   Event.calloc (toSizeT (frameSize (parseWidth argv) (parseHeight argv))) true,
   Event.calloc (toSizeT (frameSize (parseWidth argv) (parseHeight argv))) true,
   Event.strtol (argv.getD 5 "")]

/-- The loop variables on entry to the frame loop, after the calls `t`: nothing
counted, nothing accumulated, both streams at their start. -/
def loopEntry (t : List Event) (data0 data1 : List Byte) : LoopState :=
  { number_of_frames := 0, total_sq_error := 0,
    file0 := { data := data0, pos := 0 }, file1 := { data := data1, pos := 0 },
    trace := t }

/-- The loop variables on entry to the frame loop of `main`. -/
def initialState (argv : List String) (data0 data1 : List Byte) : LoopState :=
  loopEntry (setupTrace argv) data0 data1

/-- The run passes every check of lines 60-115, in their order, and so enters
the frame loop with the streams `data0` and `data1`. -/
structure ReachesLoop (w : World) (argv : List String) (data0 data1 : List Byte) : Prop where
  argc : 6 ≤ argv.length
  width_ok : 1 ≤ parseWidth argv
  height_ok : 1 ≤ parseHeight argv
  size0_pos : 0 < fileSize0 w argv
  size1_pos : 0 < fileSize1 w argv
  size_eq : fileSize0 w argv = fileSize1 w argv
  frame_size_ne : frameSize (parseWidth argv) (parseHeight argv) ≠ 0
  whole : Int.tmod (fileSize0 w argv)
    (frameSize (parseWidth argv) (parseHeight argv)) = 0
  open0 : w.fopen (argv.getD 1 "") = some data0
  open1 : w.fopen (argv.getD 2 "") = some data1
  alloc0 : w.calloc_ok 0 = true
  alloc1 : w.calloc_ok 1 = true

/-- A validated run: it reaches the loop, the frame size is positive, and the
streams opened are the files that were measured (the two sizes found in
`st.st_size` are their lengths), each below the 2 GiB limit. -/
structure Validated (w : World) (argv : List String) (data0 data1 : List Byte)
    extends ReachesLoop w argv data0 data1 : Prop where
  frame_size_pos : 0 < frameSize (parseWidth argv) (parseHeight argv)
  length0 : st_size w (argv.getD 1 "") w.stack = data0.length
  length1 : st_size w (argv.getD 2 "") (st_size w (argv.getD 1 "") w.stack) = data1.length
  limit0 : data0.length < 2 ^ 31
  limit1 : data1.length < 2 ^ 31

/-! ## Specification-side quantities -/

/-- Squared difference of two bytes, as a natural number. -/
def sqDiff (p : Byte × Byte) : Nat := (((p.2.val : Int) - (p.1.val : Int)) ^ 2).toNat

/-- Exact sum of the squared differences of a list of byte pairs. -/
def sumSqDiff (l : List (Byte × Byte)) : Nat := (l.map sqDiff).sum

/-- The byte pairs of the frames a loop has processed: the first
`number_of_frames * frame_size` bytes of each source, paired. -/
def processedPairs (frame_size : Int) (s : LoopState) (data0 data1 : List Byte) :
    List (Byte × Byte) :=
  (data0.take (s.number_of_frames.toNat * frame_size.toNat)).zip
    (data1.take (s.number_of_frames.toNat * frame_size.toNat))

/-- Number of loop iterations: bounded by the iterations allowed and by the
whole frames of `n` bytes that each stream still holds (`a`, `b`: the bytes
from the cursor on). -/
def framesDone (n remaining : Nat) (a b : List Byte) : Nat :=
  min remaining (min (a.length / n) (b.length / n))

/-! ## Environments for evaluation -/

/-- Stand-in for `log10` when a run is evaluated: the integer part of the
decimal logarithm on the range `[1, 10^6)`. -/
def floorLog10 (q : ℚ) : ℚ :=
  if q < 10 then 0 else if q < 100 then 1 else if q < 1000 then 2
  else if q < 10000 then 3 else if q < 100000 then 4 else 5

/-- An environment with the file `data0` at path `"a"` and `data1` at every other
path, in which every allocation succeeds. -/
def twoFiles (data0 data1 : List Byte) : World :=
  { stat := fun p => if p = "a" then some (data0.length : Int) else some (data1.length : Int)
    stack := 0
    fopen := fun p => if p = "a" then some data0 else some data1
    calloc_ok := fun _ => true
    log10 := floorLog10 }

/-- An environment in which every path names a file of `2^32 + 6` zero bytes. -/
def oversizedFiles : World :=
  { stat := fun _ => some 4294967302
    stack := 0
    fopen := fun _ => some (List.replicate 4294967302 0)
    calloc_ok := fun _ => true
    log10 := floorLog10 }

/-- Byte length of one planar 4:2:0 frame as the specification lays it out: a Y
plane of `width * height` bytes followed by U and V planes of
`(width / 2) * (height / 2)` bytes each. -/
def planarLayoutBytes (width height : Int) : Int :=
  width * height + 2 * ((width / 2) * (height / 2))

/-- The number that a string of decimal digits denotes: its digits, least
significant first, read in base 10. -/
def decimalValue (ds : List Char) : Nat :=
  Nat.ofDigits 10 ((ds.map (fun c => c.toNat - 48)).reverse)
/-- What a run measures: the exit status, the values printed, the frames
processed and the accumulated squared error. -/
def outcome (r : Result) : Option Int × List ℚ × Int × Nat :=
  (r.return_status, r.stdout, r.number_of_frames, r.total_sq_error)

/-- A file handle is acquired by a successful `fopen`; the first one is file 0,
the second file 1. -/
def isOpen : Event → Bool
  | Event.fopen _ true => true
  | _ => false

/-- A frame buffer is acquired by a successful `calloc`; the first one is frame
0, the second frame 1. -/
def isAlloc : Event → Bool
  | Event.calloc _ true => true
  | _ => false

/-- A resource is released by `free` or `fclose`. -/
def isRelease : Event → Bool
  | Event.free _ => true
  | Event.fclose _ => true
  | _ => false

/-- Number of file handles a trace acquires. -/
def handlesOpened (t : List Event) : Nat := t.countP isOpen

/-- Number of frame buffers a trace acquires. -/
def buffersAllocated (t : List Event) : Nat := t.countP isAlloc
/-- A trace made of a part without releases followed by the releases of
`cleanup`, whose flags record what that part acquired. -/
def TraceShape (t : List Event) : Prop :=
  ∃ (pre : List Event) (frame0 frame1 file0_ptr file1_ptr : Bool),
    t = pre ++ cleanup frame0 frame1 file0_ptr file1_ptr ∧
    (∀ e ∈ pre, isRelease e = false) ∧
    pre.countP isOpen = (if file0_ptr = true then 1 else 0)
      + (if file1_ptr = true then 1 else 0) ∧
    pre.countP isAlloc = (if frame0 = true then 1 else 0) + (if frame1 = true then 1 else 0) ∧
    (file1_ptr = true → file0_ptr = true) ∧ (frame1 = true → frame0 = true)
/-- An environment with two files of 6 bytes in which the allocation of `frame1`
fails. -/
def secondAllocFails : World :=
  { stat := fun _ => some 6
    stack := 0
    fopen := fun _ => some [1, 2, 3, 4, 5, 6]
    calloc_ok := fun k => decide (k = 0)
    log10 := floorLog10 }

/-- A natural number that a double holds exactly: below `2^53`, or a multiple of
the spacing `2^(log2 n - 52)` of its binade. -/
def isDouble (n : Nat) : Prop := n < 2 ^ 53 ∨ 2 ^ (Nat.log2 n - 52) ∣ n

/-- The loop variables after one iteration of the `while` loop whose two reads
were full (lines 122-130). -/
def afterIteration (frame_size : Int) (s : LoopState) : LoopState :=
  { number_of_frames := s.number_of_frames + 1
    total_sq_error := frameError frame_size (fread s.file0 (toSizeT frame_size)).1
      (fread s.file1 (toSizeT frame_size)).1 s.total_sq_error
    file0 := (fread s.file0 (toSizeT frame_size)).2
    file1 := (fread s.file1 (toSizeT frame_size)).2
    trace := s.trace
      ++ [Event.fread 0 (toSizeT frame_size) (fread s.file0 (toSizeT frame_size)).1.length]
      ++ [Event.fread 1 (toSizeT frame_size) (fread s.file1 (toSizeT frame_size)).1.length] }

/-- An environment in which every path names a file of `2^32 + 6` bytes: zeros at
path `"a"`, bytes 255 elsewhere; `log10` is left open. -/
def oversizedPair (log10 : ℚ → ℚ) : World :=
  { stat := fun _ => some 4294967302
    stack := 0
    fopen := fun p =>
      if p = "a" then some (List.replicate 4294967302 0)
      else some (List.replicate 4294967302 255)
    calloc_ok := fun _ => true
    log10 := log10 }

/-- An environment with a single file: path `"a"` names a file of six bytes, no
other path names anything (`stat` and `fopen` fail there); `garbage` is what the
uninitialised `st.st_size` holds at the first call of `get_file_size`. -/
def oneFile (garbage : Int) : World :=
  { stat := fun p => if p = "a" then some 6 else none
    stack := garbage
    fopen := fun p => if p = "a" then some [1, 2, 3, 4, 5, 6] else none
    calloc_ok := fun _ => true
    log10 := floorLog10 }

/-! ## Lemmas on the arithmetic -/

/-- The count the loop recurses on is 0 exactly when the loop test
`number_of_frames < max_frames` fails. -/
theorem loop_test_iff (max_frames number_of_frames : Int) :
    (max_frames - number_of_frames).toNat = 0 ↔ ¬ (number_of_frames < max_frames) := by
  omega

theorem roundDouble_of_lt {n : Nat} (h : n < 2 ^ 53) : roundDouble n = n := by
  unfold roundDouble
  rw [if_pos h]

theorem sqDiff_le (p : Byte × Byte) : sqDiff p ≤ 65025 := by
  unfold sqDiff
  have h1 := p.1.isLt
  have h2 := p.2.isLt
  have h3 : ((p.2.val : Int) - (p.1.val : Int)) ^ 2 ≤ 65025 := by nlinarith
  omega

theorem addSqDiff_eq (t : Nat) (p : Byte × Byte) :
    addSqDiff t p = roundDouble (t + sqDiff p) := by
  unfold addSqDiff sqDiff
  simp only [pow_two]

theorem sumSqDiff_le (l : List (Byte × Byte)) : sumSqDiff l ≤ 65025 * l.length := by
  induction l with
  | nil => simp [sumSqDiff]
  | cons p l ih =>
    have := sqDiff_le p
    simp only [sumSqDiff, List.map_cons, List.sum_cons, List.length_cons] at ih ⊢
    omega

/-- Below `2^53` no addition of the inner loop rounds: the accumulator is the
exact sum. -/
theorem foldl_addSqDiff_exact (l : List (Byte × Byte)) (t : Nat)
    (h : t + sumSqDiff l < 2 ^ 53) : l.foldl addSqDiff t = t + sumSqDiff l := by
  induction l generalizing t with
  | nil => simp [sumSqDiff]
  | cons p l ih =>
    simp only [sumSqDiff, List.map_cons, List.sum_cons] at h ⊢
    have hp : t + sqDiff p < 2 ^ 53 := by omega
    rw [List.foldl_cons, addSqDiff_eq, roundDouble_of_lt hp, ih]
    · simp only [sumSqDiff]; omega
    · simp only [sumSqDiff]; omega

theorem take_zip {α β : Type} (n : Nat) (l : List α) (l2 : List β) :
    (l.zip l2).take n = (l.take n).zip (l2.take n) := by
  simp only [List.zip, List.take_zipWith]

theorem drop_zip {α β : Type} (n : Nat) (l : List α) (l2 : List β) :
    (l.zip l2).drop n = (l.drop n).zip (l2.drop n) := by
  simp only [List.zip, List.drop_zipWith]

theorem toSizeT_of_pos {x : Int} (h0 : 0 ≤ x) (h1 : x < 2 ^ 64) : toSizeT x = x.toNat := by
  unfold toSizeT
  rw [Int.emod_eq_of_lt h0 h1]

/-! ## The frame loop, characterised -/

theorem framesDone_succ {n k : Nat} {a b : List Byte} (hn : 0 < n) (h0 : n ≤ a.length)
    (h1 : n ≤ b.length) :
    framesDone n (k + 1) a b = framesDone n k (a.drop n) (b.drop n) + 1 := by
  simp only [framesDone, List.length_drop]
  rw [Nat.div_eq a.length n, Nat.div_eq b.length n, if_pos ⟨hn, h0⟩, if_pos ⟨hn, h1⟩]
  omega

theorem framesDone_short0 {n k : Nat} {a b : List Byte} (h0 : a.length < n) :
    framesDone n k a b = 0 := by
  simp only [framesDone, Nat.div_eq_of_lt h0]
  simp

theorem framesDone_short1 {n k : Nat} {a b : List Byte} (h1 : b.length < n) :
    framesDone n k a b = 0 := by
  simp only [framesDone, Nat.div_eq_of_lt h1]
  simp

theorem foldl_take_succ_mul {α β : Type} (f : β → α → β) (t : β) (z : List α) (m n : Nat) :
    (z.take ((m + 1) * n)).foldl f t = ((z.drop n).take (m * n)).foldl f ((z.take n).foldl f t) := by
  have e : (m + 1) * n = n + m * n := by ring
  rw [e, List.take_add, List.foldl_append]

/-- The loop processes `framesDone` frames and folds the inner step over
exactly the byte pairs of those frames. -/
theorem frameLoopAux_spec (frame_size : Int) (n : Nat) (hn : 0 < n)
    (hs : toSizeT frame_size = n) (ht : frame_size.toNat = n) :
    ∀ (remaining : Nat) (s : LoopState),
      (frameLoopAux frame_size remaining s).number_of_frames
          = s.number_of_frames
            + (framesDone n remaining (s.file0.data.drop s.file0.pos)
                (s.file1.data.drop s.file1.pos) : Nat) ∧
      (frameLoopAux frame_size remaining s).total_sq_error
          = ((((s.file0.data.drop s.file0.pos).zip (s.file1.data.drop s.file1.pos))).take
              (framesDone n remaining (s.file0.data.drop s.file0.pos)
                (s.file1.data.drop s.file1.pos) * n)).foldl addSqDiff s.total_sq_error := by
  intro remaining
  induction remaining with
  | zero =>
    intro s
    simp [frameLoopAux, framesDone]
  | succ k ih =>
    intro s
    unfold frameLoopAux
    simp only [fread, hs]
    by_cases h0 : n ≤ (s.file0.data.drop s.file0.pos).length
    · have e0 : ((s.file0.data.drop s.file0.pos).take n).length = n := by
        rw [List.length_take]; exact min_eq_left h0
      by_cases h1 : n ≤ (s.file1.data.drop s.file1.pos).length
      · have e1 : ((s.file1.data.drop s.file1.pos).take n).length = n := by
          rw [List.length_take]; exact min_eq_left h1
        rw [if_pos e0, if_pos e1, e0, e1]
        have ih2 := ih
          { number_of_frames := s.number_of_frames + 1
            total_sq_error := frameError frame_size
              (List.take n (List.drop s.file0.pos s.file0.data))
              (List.take n (List.drop s.file1.pos s.file1.data)) s.total_sq_error
            file0 := { data := s.file0.data, pos := s.file0.pos + n }
            file1 := { data := s.file1.data, pos := s.file1.pos + n }
            trace := s.trace ++ [Event.fread 0 n n] ++ [Event.fread 1 n n] }
        simp only [← List.drop_drop] at ih2
        obtain ⟨ihn, iht⟩ := ih2
        rw [framesDone_succ hn h0 h1]
        constructor
        · rw [ihn]; push_cast; ring
        · rw [iht, foldl_take_succ_mul, drop_zip]
          simp only [frameError, ht, ← take_zip, List.take_take, min_self]
      · have e1 : ((s.file1.data.drop s.file1.pos).take n).length ≠ n := by
          rw [List.length_take]; omega
        rw [if_pos e0, if_neg e1, framesDone_short1 (by omega)]
        simp
    · have e0 : ((s.file0.data.drop s.file0.pos).take n).length ≠ n := by
        rw [List.length_take]; omega
      rw [if_neg e0, framesDone_short0 (by omega)]
      simp

theorem main_of_reachesLoop (w : World) (argv : List String) (data0 data1 : List Byte)
    (h : ReachesLoop w argv data0 data1) :
    main w argv = report w (frameSize (parseWidth argv) (parseHeight argv))
      (frameLoop (frameSize (parseWidth argv) (parseHeight argv)) (parseMaxFrames argv)
        (initialState argv data0 data1)) := by
  have h1 : ¬ argv.length < 6 := not_lt.mpr h.argc
  have h2 : ¬ (parseWidth argv < 1 ∨ parseHeight argv < 1) := by
    have := h.width_ok; have := h.height_ok; omega
  have h3 : ¬ (fileSize0 w argv ≤ 0 ∨ fileSize1 w argv ≤ 0) := by
    have := h.size0_pos; have := h.size1_pos; omega
  have h4 : ¬ (fileSize0 w argv ≠ fileSize1 w argv) :=
    not_not.mpr h.size_eq
  have h5 : ¬ (Int.tmod (fileSize0 w argv)
      (frameSize (parseWidth argv) (parseHeight argv)) ≠ 0) := not_not.mpr h.whole
  unfold main
  simp only [if_neg h1, if_neg h2, if_neg h3, if_neg h4, if_neg h5, if_neg h.frame_size_ne,
    h.open0, h.open1, h.alloc0, h.alloc1]
  rfl

/-! ## Validated runs -/

/-- A successful `stat` determines `st.st_size`, whatever the field held. -/
theorem st_size_of_stat {w : World} {filename : String} {size : Int} (slot : Int)
    (h : w.stat filename = some size) : st_size w filename slot = size := by
  unfold st_size
  rw [h]

theorem wrap32_of_range {x : Int} (h0 : -2 ^ 31 ≤ x) (h1 : x < 2 ^ 31) : wrap32 x = x := by
  unfold wrap32
  omega

theorem wrap32_lt (x : Int) : wrap32 x < 2 ^ 31 := by
  unfold wrap32
  omega

theorem frameSize_lt (width height : Int) (h : 0 < frameSize width height) :
    frameSize width height < 2 ^ 31 := by
  unfold frameSize at h ⊢
  have hb := wrap32_lt (wrap32 (width * height) * 3)
  by_cases hx : 0 ≤ wrap32 (wrap32 (width * height) * 3)
  · rw [Int.tdiv_eq_ediv hx (by norm_num)] at h ⊢
    omega
  · exfalso
    have h2 : 0 ≤ Int.tdiv (-wrap32 (wrap32 (width * height) * 3)) 2 :=
      Int.tdiv_nonneg (by omega) (by norm_num)
    rw [Int.neg_tdiv] at h2
    omega

/-- What validation establishes: a positive frame size `n` that divides the
common length of the two streams. -/
theorem Validated.frames {w : World} {argv : List String} {data0 data1 : List Byte}
    (h : Validated w argv data0 data1) :
    ∃ n : Nat, 0 < n ∧ frameSize (parseWidth argv) (parseHeight argv) = (n : Int) ∧
      toSizeT (frameSize (parseWidth argv) (parseHeight argv)) = n ∧
      (frameSize (parseWidth argv) (parseHeight argv)).toNat = n ∧
      data0.length = data1.length ∧ n ∣ data0.length ∧ 0 < data0.length := by
  have hpos := h.frame_size_pos
  have hlt := frameSize_lt _ _ hpos
  have hsz0 : fileSize0 w argv = (data0.length : Int) := by
    unfold fileSize0 get_file_size
    rw [h.length0]
    have := h.limit0
    exact wrap32_of_range (by omega) (by exact_mod_cast this)
  have hsz1 : fileSize1 w argv = (data1.length : Int) := by
    unfold fileSize1 get_file_size
    rw [h.length1]
    have := h.limit1
    exact wrap32_of_range (by omega) (by exact_mod_cast this)
  have heq : (data0.length : Int) = data1.length := by
    rw [← hsz0, ← hsz1]; exact h.size_eq
  have hlen : 0 < (data0.length : Int) := by rw [← hsz0]; exact h.size0_pos
  have hwhole := h.whole
  rw [hsz0, Int.tmod_eq_emod (by omega) (by omega)] at hwhole
  refine ⟨(frameSize (parseWidth argv) (parseHeight argv)).toNat, by omega, by omega, ?_, rfl,
    by exact_mod_cast heq, ?_, by exact_mod_cast hlen⟩
  · rw [toSizeT_of_pos (by omega) (by omega)]
  · have h3 : ((frameSize (parseWidth argv) (parseHeight argv)).toNat : Int) ∣ (data0.length : Int) := by
      rw [Int.toNat_of_nonneg (by omega)]
      exact Int.dvd_of_emod_eq_zero hwhole
    exact_mod_cast h3

theorem foldl_addSqDiff_diag (l : List (Byte × Byte)) (h : ∀ p ∈ l, p.1 = p.2) :
    l.foldl addSqDiff 0 = 0 := by
  induction l with
  | nil => rfl
  | cons p l ih =>
    have hp : addSqDiff 0 p = 0 := by
      rw [addSqDiff_eq]
      have : sqDiff p = 0 := by
        unfold sqDiff
        rw [h p (List.mem_cons_self p l)]
        simp
      rw [this]
      exact roundDouble_of_lt (by norm_num)
    rw [List.foldl_cons, hp]
    exact ih (fun q hq => h q (List.mem_cons_of_mem p hq))

theorem mem_zip_self {α : Type} (l : List α) (p : α × α) (h : p ∈ l.zip l) : p.1 = p.2 := by
  induction l with
  | nil => simp at h
  | cons a l ih =>
    rw [List.zip_cons_cons, List.mem_cons] at h
    rcases h with h | h
    · rw [h]
    · exact ih h

theorem mse2psnr_zero (log10 : ℚ → ℚ) (samples peak : ℚ) :
    mse2psnr log10 samples peak 0 = 100 := by
  simp [mse2psnr, MAX_PSNR]

theorem frameLoop_initial (argv : List String) (data0 data1 : List Byte) (frame_size : Int)
    (max_frames : Int) (n : Nat) (hn : 0 < n) (hs : toSizeT frame_size = n)
    (ht : frame_size.toNat = n) :
    (frameLoop frame_size max_frames (initialState argv data0 data1)).number_of_frames
        = (framesDone n max_frames.toNat data0 data1 : Nat) ∧
    (frameLoop frame_size max_frames (initialState argv data0 data1)).total_sq_error
        = ((data0.zip data1).take (framesDone n max_frames.toNat data0 data1 * n)).foldl
            addSqDiff 0 := by
  have h := frameLoopAux_spec frame_size n hn hs ht max_frames.toNat (initialState argv data0 data1)
  simpa [frameLoop, initialState, loopEntry] using h

/-- C1. With valid dimensions, `max_frames >= 1` and two byte-for-byte identical
validated files, the frame loop ends with `total_sq_error` exactly 0 and the
value printed is exactly `MAX_PSNR`, which is 100. -/
theorem identical_files_psnr_max (w : World) (argv : List String) (data : List Byte)
    (h : Validated w argv data data) (hmax : 1 ≤ parseMaxFrames argv) :
    (main w argv).total_sq_error = 0 ∧ (main w argv).stdout = [MAX_PSNR] ∧ MAX_PSNR = 100 := by
  obtain ⟨n, hn, _, hs, ht, _, hdvd, hlen⟩ := h.frames
  obtain ⟨hnof, htot⟩ := frameLoop_initial argv data data _ (parseMaxFrames argv) n hn hs ht
  have hzero : (frameLoop (frameSize (parseWidth argv) (parseHeight argv)) (parseMaxFrames argv)
      (initialState argv data data)).total_sq_error = 0 := by
    rw [htot]
    exact foldl_addSqDiff_diag _ (fun p hp => mem_zip_self data p (List.mem_of_mem_take hp))
  have hk : 1 ≤ framesDone n (parseMaxFrames argv).toNat data data := by
    have h1 : n ≤ data.length := Nat.le_of_dvd hlen hdvd
    have h2 : 1 ≤ data.length / n := (Nat.one_le_div_iff hn).mpr h1
    simp only [framesDone, min_self]
    exact le_min (by omega) h2
  rw [main_of_reachesLoop w argv data data h.toReachesLoop]
  refine ⟨hzero, ?_, rfl⟩
  simp only [report, hzero]
  rw [if_pos (by rw [hnof]; exact_mod_cast hk)]
  simp [mse2psnr_zero, MAX_PSNR]

theorem identical_files_psnr_max_witness :
    Validated (twoFiles [1, 2, 3, 4, 5, 6] [1, 2, 3, 4, 5, 6]) ["psnr", "a", "b", "2", "2", "1"]
        [1, 2, 3, 4, 5, 6] [1, 2, 3, 4, 5, 6] ∧
      1 ≤ parseMaxFrames ["psnr", "a", "b", "2", "2", "1"] ∧
      (main (twoFiles [1, 2, 3, 4, 5, 6] [1, 2, 3, 4, 5, 6])
          ["psnr", "a", "b", "2", "2", "1"]).total_sq_error = 0 ∧
      (main (twoFiles [1, 2, 3, 4, 5, 6] [1, 2, 3, 4, 5, 6])
          ["psnr", "a", "b", "2", "2", "1"]).stdout = [MAX_PSNR] ∧ MAX_PSNR = 100 := by
  have hv : Validated (twoFiles [1, 2, 3, 4, 5, 6] [1, 2, 3, 4, 5, 6])
      ["psnr", "a", "b", "2", "2", "1"] [1, 2, 3, 4, 5, 6] [1, 2, 3, 4, 5, 6] :=
    { argc := by decide, width_ok := by decide, height_ok := by decide,
      size0_pos := by decide, size1_pos := by decide, size_eq := by decide,
      frame_size_ne := by decide, whole := by decide, open0 := by decide, open1 := by decide,
      alloc0 := by decide, alloc1 := by decide, frame_size_pos := by decide,
      length0 := by decide, length1 := by decide, limit0 := by decide, limit1 := by decide }
  exact ⟨hv, by decide, identical_files_psnr_max _ _ _ hv (by decide)⟩

theorem mse2psnr_of_pos (log10 : ℚ → ℚ) (samples peak mse : ℚ) (h : 0 < mse) :
    mse2psnr log10 samples peak mse = min 100 (10 * log10 (peak * peak * samples / mse)) := by
  unfold mse2psnr MAX_PSNR
  simp only [gt_iff_lt, if_pos h]
  by_cases hx : 100 < 10 * log10 (peak * peak * samples / mse)
  · rw [if_pos hx, min_eq_left hx.le]
  · rw [if_neg hx, min_eq_right (not_lt.mp hx)]

theorem sumSqDiff_const (l : List (Byte × Byte)) (c : Nat) (h : ∀ p ∈ l, sqDiff p = c) :
    sumSqDiff l = c * l.length := by
  induction l with
  | nil => simp [sumSqDiff]
  | cons p l ih =>
    have hp := h p (List.mem_cons_self p l)
    have hl := ih (fun q hq => h q (List.mem_cons_of_mem p hq))
    simp only [sumSqDiff, List.map_cons, List.sum_cons, List.length_cons] at hl ⊢
    rw [hp, hl]; ring

/-- In a validated run the frames processed lie within the files: their bytes
number `framesDone * n`, below `2^31`, and the accumulator is the exact sum of
their squared differences. -/
theorem Validated.exact {w : World} {argv : List String} {data0 data1 : List Byte}
    (h : Validated w argv data0 data1) :
    ∃ n k : Nat, 0 < n ∧ frameSize (parseWidth argv) (parseHeight argv) = (n : Int) ∧
      k = framesDone n (parseMaxFrames argv).toNat data0 data1 ∧
      k * n ≤ data0.length ∧ k * n ≤ data1.length ∧
      (main w argv).number_of_frames = (k : Int) ∧
      (main w argv).total_sq_error = sumSqDiff ((data0.zip data1).take (k * n)) ∧
      (0 < k → (main w argv).stdout
        = [mse2psnr w.log10 ((k : ℚ) * (n : ℚ)) 255 ((main w argv).total_sq_error : ℚ)]) ∧
      (0 < k → Event.mse2psnr ((k : Int) * (n : Int)) (main w argv).total_sq_error
        ∈ (main w argv).trace) := by
  obtain ⟨n, hn, hfs, hs, ht, hlen, _, _⟩ := h.frames
  obtain ⟨hnof, htot⟩ := frameLoop_initial argv data0 data1 _ (parseMaxFrames argv) n hn hs ht
  have hk0 : framesDone n (parseMaxFrames argv).toNat data0 data1 * n ≤ data0.length := by
    have h1 : framesDone n (parseMaxFrames argv).toNat data0 data1 ≤ data0.length / n := by
      unfold framesDone
      exact le_trans (min_le_right _ _) (min_le_left _ _)
    exact le_trans (Nat.mul_le_mul_right n h1) (Nat.div_mul_le_self _ _)
  have hmain := main_of_reachesLoop w argv data0 data1 h.toReachesLoop
  have hsamples : wrap32 (((framesDone n (parseMaxFrames argv).toNat data0 data1 : Nat) : Int)
      * (n : Int)) = ((framesDone n (parseMaxFrames argv).toNat data0 data1 : Nat) : Int)
      * (n : Int) := by
    have hl := h.limit0
    apply wrap32_of_range
    · have : (0 : Int) ≤ ((framesDone n (parseMaxFrames argv).toNat data0 data1 : Nat) : Int)
          * (n : Int) := by positivity
      omega
    · have h2 : ((framesDone n (parseMaxFrames argv).toNat data0 data1 * n : Nat) : Int)
          < 2 ^ 31 := by
        have : framesDone n (parseMaxFrames argv).toNat data0 data1 * n < 2 ^ 31 := by omega
        exact_mod_cast this
      push_cast at h2
      exact h2
  refine ⟨n, _, hn, hfs, rfl, hk0, hlen ▸ hk0, ?_, ?_, ?_, ?_⟩
  · rw [hmain]; exact hnof
  · rw [hmain]
    show (frameLoop _ _ _).total_sq_error = _
    rw [htot, foldl_addSqDiff_exact, Nat.zero_add]
    have hb := sumSqDiff_le ((data0.zip data1).take
      (framesDone n (parseMaxFrames argv).toNat data0 data1 * n))
    have hl : ((data0.zip data1).take
        (framesDone n (parseMaxFrames argv).toNat data0 data1 * n)).length
        ≤ data0.length := by
      rw [List.length_take]
      exact le_trans (min_le_left _ _) hk0
    have := h.limit0
    omega
  · intro hk
    rw [hmain]
    simp only [report]
    rw [hnof, if_pos (by exact_mod_cast hk), hfs, hsamples]
    push_cast
    rfl
  · intro hk
    rw [hmain]
    simp only [report]
    rw [hnof, if_pos (by exact_mod_cast hk), hfs, hsamples]
    simp

/-- C2. When every byte of the second validated file is the corresponding byte
of the first plus the same offset `d`, `d` not 0, and at least one frame is
processed, the value printed is `min(100, 10 * log10(255^2 / d^2))`, whatever
the frame size and the number of frames. -/
theorem constant_offset_psnr (w : World) (argv : List String) (data0 data1 : List Byte)
    (d : Int) (h : Validated w argv data0 data1) (hd : d ≠ 0)
    (hoff : List.Forall₂ (fun a b => ((b.val : Int) = (a.val : Int) + d)) data0 data1)
    (hframes : 0 < (main w argv).number_of_frames) :
    (main w argv).stdout = [min 100 (10 * w.log10 ((255 : ℚ) ^ 2 / (d : ℚ) ^ 2))] := by
  obtain ⟨n, k, hn, hfs, hk, hk0, hk1, hnof, htot, hout, _⟩ := h.exact
  have hkpos : 0 < k := by
    rw [hnof] at hframes
    exact_mod_cast hframes
  have hsq : ∀ p ∈ (data0.zip data1).take (k * n), sqDiff p = (d ^ 2).toNat := by
    intro p hp
    have hz := (List.forall₂_iff_zip.mp hoff).2
      (show (p.1, p.2) ∈ data0.zip data1 from List.mem_of_mem_take hp)
    unfold sqDiff
    rw [hz]
    congr 2
    ring
  have hlen : ((data0.zip data1).take (k * n)).length = k * n := by
    rw [List.length_take, List.length_zip]
    omega
  rw [sumSqDiff_const _ _ hsq, hlen] at htot
  have hd2 : ((d ^ 2).toNat : ℚ) = (d : ℚ) ^ 2 := by
    have : (((d ^ 2).toNat : Int) : ℚ) = ((d ^ 2 : Int) : ℚ) := by
      rw [Int.toNat_of_nonneg (sq_nonneg d)]
    push_cast at this
    exact_mod_cast this
  have hdq : (d : ℚ) ≠ 0 := by exact_mod_cast hd
  have hnq : (n : ℚ) ≠ 0 := by exact_mod_cast hn.ne'
  have hkq : (k : ℚ) ≠ 0 := by exact_mod_cast hkpos.ne'
  have hmse : (0 : ℚ) < (((d ^ 2).toNat * (k * n) : Nat) : ℚ) := by
    rw [Nat.cast_mul, Nat.cast_mul, hd2]
    have hd2pos : (0 : ℚ) < (d : ℚ) ^ 2 :=
      lt_of_le_of_ne (sq_nonneg _) (Ne.symm (pow_ne_zero 2 hdq))
    have hkpos2 : (0 : ℚ) < (k : ℚ) := by exact_mod_cast hkpos
    have hnpos2 : (0 : ℚ) < (n : ℚ) := by exact_mod_cast hn
    exact mul_pos hd2pos (mul_pos hkpos2 hnpos2)
  have harg : (255 : ℚ) * 255 * ((k : ℚ) * (n : ℚ))
      / (((d ^ 2).toNat * (k * n) : Nat) : ℚ) = (255 : ℚ) ^ 2 / (d : ℚ) ^ 2 := by
    rw [Nat.cast_mul, Nat.cast_mul, hd2]
    field_simp
    ring
  rw [hout hkpos, htot, mse2psnr_of_pos _ _ _ _ hmse, harg]

theorem constant_offset_psnr_witness :
    Validated (twoFiles [1, 2, 3, 4, 5, 6] [4, 5, 6, 7, 8, 9]) ["psnr", "a", "b", "2", "2", "1"]
        [1, 2, 3, 4, 5, 6] [4, 5, 6, 7, 8, 9] ∧
      (3 : Int) ≠ 0 ∧
      List.Forall₂ (fun (a b : Byte) => ((b.val : Int) = (a.val : Int) + 3))
        [1, 2, 3, 4, 5, 6] [4, 5, 6, 7, 8, 9] ∧
      0 < (main (twoFiles [1, 2, 3, 4, 5, 6] [4, 5, 6, 7, 8, 9])
          ["psnr", "a", "b", "2", "2", "1"]).number_of_frames ∧
      (main (twoFiles [1, 2, 3, 4, 5, 6] [4, 5, 6, 7, 8, 9])
          ["psnr", "a", "b", "2", "2", "1"]).stdout
        = [min 100 (10 * floorLog10 ((255 : ℚ) ^ 2 / ((3 : Int) : ℚ) ^ 2))] := by
  have hv : Validated (twoFiles [1, 2, 3, 4, 5, 6] [4, 5, 6, 7, 8, 9])
      ["psnr", "a", "b", "2", "2", "1"] [1, 2, 3, 4, 5, 6] [4, 5, 6, 7, 8, 9] :=
    { argc := by decide, width_ok := by decide, height_ok := by decide,
      size0_pos := by decide, size1_pos := by decide, size_eq := by decide,
      frame_size_ne := by decide, whole := by decide, open0 := by decide, open1 := by decide,
      alloc0 := by decide, alloc1 := by decide, frame_size_pos := by decide,
      length0 := by decide, length1 := by decide, limit0 := by decide, limit1 := by decide }
  have hoff : List.Forall₂ (fun (a b : Byte) => ((b.val : Int) = (a.val : Int) + 3))
      [1, 2, 3, 4, 5, 6] [4, 5, 6, 7, 8, 9] :=
    List.Forall₂.cons (by decide) (List.Forall₂.cons (by decide) (List.Forall₂.cons (by decide)
      (List.Forall₂.cons (by decide) (List.Forall₂.cons (by decide)
        (List.Forall₂.cons (by decide) List.Forall₂.nil)))))
  exact ⟨hv, by decide, hoff, by decide,
    constant_offset_psnr _ _ _ _ 3 hv (by decide) hoff (by decide)⟩

theorem sumSqDiff_zip_self (l : List Byte) : sumSqDiff (l.zip l) = 0 := by
  have h : ∀ p ∈ l.zip l, sqDiff p = 0 := by
    intro p hp
    unfold sqDiff
    rw [mem_zip_self l p hp]
    simp
  rw [sumSqDiff_const _ 0 h, Nat.zero_mul]

theorem sumSqDiff_append (l l2 : List (Byte × Byte)) :
    sumSqDiff (l ++ l2) = sumSqDiff l + sumSqDiff l2 := by
  simp [sumSqDiff]

/-- C3. In a validated run whose processed frames differ in exactly one byte,
`a` in the first file and `b` in the second with `d = b - a`, the loop ends with
`total_sq_error = d * d`, the reducer is called with
`samples = number_of_frames * frame_size`, and the value printed is
`10 * log10(255^2 * samples / (d * d))` clamped to 100. For width 2, height 2,
`max_frames` 1 and files of 6 bytes the sample count is 6. -/
theorem single_byte_difference (w : World) (argv : List String) (data0 data1 : List Byte)
    (pre post : List Byte) (a b : Byte) (h : Validated w argv data0 data1) (hab : a ≠ b)
    (h0 : data0.take ((main w argv).number_of_frames.toNat
        * (frameSize (parseWidth argv) (parseHeight argv)).toNat) = pre ++ a :: post)
    (h1 : data1.take ((main w argv).number_of_frames.toNat
        * (frameSize (parseWidth argv) (parseHeight argv)).toNat) = pre ++ b :: post) :
    (main w argv).total_sq_error
        = ((((b.val : Int) - (a.val : Int)) * ((b.val : Int) - (a.val : Int))).toNat) ∧
      Event.mse2psnr
          ((main w argv).number_of_frames * frameSize (parseWidth argv) (parseHeight argv))
          ((((b.val : Int) - (a.val : Int)) * ((b.val : Int) - (a.val : Int))).toNat)
        ∈ (main w argv).trace ∧
      (main w argv).stdout
        = [min 100 (10 * w.log10 ((255 : ℚ) ^ 2
            * (((main w argv).number_of_frames
                * frameSize (parseWidth argv) (parseHeight argv) : Int) : ℚ)
            / ((((b.val : Int) - (a.val : Int)) * ((b.val : Int) - (a.val : Int)) : Int) : ℚ)))] ∧
      (parseWidth argv = 2 → parseHeight argv = 2 → parseMaxFrames argv = 1 →
        data0.length = 6 →
        (main w argv).number_of_frames * frameSize (parseWidth argv) (parseHeight argv) = 6) := by
  obtain ⟨n, k, hn, hfs, hk, hk0, hk1, hnof, htot, hout, htr⟩ := h.exact
  rw [hnof, hfs, Int.toNat_natCast, Int.toNat_natCast] at h0 h1
  have hkpos : 0 < k := by
    rcases Nat.eq_zero_or_pos k with h | h
    · rw [h, Nat.zero_mul, List.take_zero] at h0
      simp at h0
    · exact h
  have hd : (b.val : Int) - (a.val : Int) ≠ 0 := by
    intro hz
    apply hab
    apply Fin.ext
    omega
  have hdpos : (0 : Int) < ((b.val : Int) - (a.val : Int)) * ((b.val : Int) - (a.val : Int)) :=
    lt_of_le_of_ne (mul_self_nonneg _) (Ne.symm (mul_self_ne_zero.mpr hd))
  have htotal : (main w argv).total_sq_error
      = ((((b.val : Int) - (a.val : Int)) * ((b.val : Int) - (a.val : Int))).toNat) := by
    rw [htot, take_zip, h0, h1, List.zip_append rfl, List.zip_cons_cons, sumSqDiff_append,
      sumSqDiff_zip_self]
    simp only [sumSqDiff, List.map_cons, List.sum_cons]
    have hpost := sumSqDiff_zip_self post
    simp only [sumSqDiff] at hpost
    rw [hpost]
    simp only [sqDiff, pow_two, Nat.zero_add, Nat.add_zero]
  have hq : ((((((b.val : Int) - (a.val : Int)) * ((b.val : Int) - (a.val : Int))).toNat : Nat)) : ℚ)
      = ((((b.val : Int) - (a.val : Int)) * ((b.val : Int) - (a.val : Int)) : Int) : ℚ) := by
    have hi : ((((((b.val : Int) - (a.val : Int)) * ((b.val : Int) - (a.val : Int))).toNat : Nat)) : Int)
        = ((b.val : Int) - (a.val : Int)) * ((b.val : Int) - (a.val : Int)) :=
      Int.toNat_of_nonneg hdpos.le
    exact_mod_cast congrArg (fun z : Int => (z : ℚ)) hi
  refine ⟨htotal, ?_, ?_, ?_⟩
  · rw [hnof, hfs, ← htotal]
    exact htr hkpos
  · have hpos : (0 : ℚ) < ((((b.val : Int) - (a.val : Int)) * ((b.val : Int) - (a.val : Int)) : Int) : ℚ) := by
      exact_mod_cast hdpos
    have harg : (255 : ℚ) * 255 * ((k : ℚ) * (n : ℚ)) = (255 : ℚ) ^ 2 * (((k : Int) * (n : Int) : Int) : ℚ) := by
      push_cast
      ring
    rw [hout hkpos, htotal, hq, mse2psnr_of_pos _ _ _ _ hpos, hnof, hfs, harg]
  · intro hw hh hm hlen
    rw [hnof, hfs]
    have hfs6 : ((n : Nat) : Int) = 6 := by
      rw [← hfs, hw, hh]
      decide
    have hn6 : n = 6 := by exact_mod_cast hfs6
    have hk1 : k = 1 := by
      rw [hk, hm, hn6]
      obtain ⟨_, _, _, _, _, hlen2, _, _⟩ := h.frames
      simp [framesDone, ← hlen2, hlen]
    rw [hk1, hn6]
    norm_num

theorem single_byte_difference_witness :
    Validated (twoFiles [10, 20, 30, 40, 50, 60] [10, 20, 35, 40, 50, 60])
        ["psnr", "a", "b", "2", "2", "1"] [10, 20, 30, 40, 50, 60] [10, 20, 35, 40, 50, 60] ∧
      (main (twoFiles [10, 20, 30, 40, 50, 60] [10, 20, 35, 40, 50, 60])
          ["psnr", "a", "b", "2", "2", "1"]).total_sq_error = 25 ∧
      Event.mse2psnr 6 25 ∈ (main (twoFiles [10, 20, 30, 40, 50, 60] [10, 20, 35, 40, 50, 60])
          ["psnr", "a", "b", "2", "2", "1"]).trace ∧
      (main (twoFiles [10, 20, 30, 40, 50, 60] [10, 20, 35, 40, 50, 60])
          ["psnr", "a", "b", "2", "2", "1"]).stdout
        = [min 100 (10 * floorLog10 ((255 : ℚ) ^ 2 * 6 / 25))] := by
  have hv : Validated (twoFiles [10, 20, 30, 40, 50, 60] [10, 20, 35, 40, 50, 60])
      ["psnr", "a", "b", "2", "2", "1"] [10, 20, 30, 40, 50, 60] [10, 20, 35, 40, 50, 60] :=
    { argc := by decide, width_ok := by decide, height_ok := by decide,
      size0_pos := by decide, size1_pos := by decide, size_eq := by decide,
      frame_size_ne := by decide, whole := by decide, open0 := by decide, open1 := by decide,
      alloc0 := by decide, alloc1 := by decide, frame_size_pos := by decide,
      length0 := by decide, length1 := by decide, limit0 := by decide, limit1 := by decide }
  have h := single_byte_difference _ _ _ _ [10, 20] [40, 50, 60] 30 35 hv (by decide)
    (by decide) (by decide)
  have h6 := h.2.2.2 (by decide) (by decide) (by decide) (by decide)
  refine ⟨hv, h.1, ?_, ?_⟩
  · have ht := h.2.1
    rw [h6] at ht
    exact ht
  · have ho := h.2.2.1
    have e : ((((35 : Byte).val : Int) - ((30 : Byte).val : Int))
        * (((35 : Byte).val : Int) - ((30 : Byte).val : Int))) = 25 := by decide
    rw [h6, e] at ho
    rw [ho]
    simp only [twoFiles]
    norm_num

theorem clamp_le_max (psnr : ℚ) : (if psnr > MAX_PSNR then MAX_PSNR else psnr) ≤ MAX_PSNR := by
  by_cases h : psnr > MAX_PSNR
  · rw [if_pos h]
  · rw [if_neg h]
    exact not_lt.mp h

/-- C4. Whatever the sample count, the peak and the error (zero, negative, or
positive and arbitrarily small), and whatever `log10` returns, the value
returned by `mse2psnr` is at most `MAX_PSNR`, which is 100. -/
theorem mse2psnr_le_max (log10 : ℚ → ℚ) (samples peak mse : ℚ) :
    mse2psnr log10 samples peak mse ≤ MAX_PSNR ∧ MAX_PSNR = 100 :=
  ⟨clamp_le_max _, rfl⟩

/-! ## The frame loop on arbitrary sources -/

theorem framesDone_cast (n : Nat) (max_frames : Int) (data0 data1 : List Byte) :
    ((framesDone n max_frames.toNat data0 data1 : Nat) : Int)
      = min (max max_frames 0)
          (min ((data0.length : Int) / (n : Int)) ((data1.length : Int) / (n : Int))) := by
  unfold framesDone
  rw [Nat.cast_min, Nat.cast_min, Int.toNat_eq_max, Int.natCast_div, Int.natCast_div]

theorem roundDouble_small_or_even (m : Nat) : roundDouble m < 2 ^ 53 ∨ 2 ∣ roundDouble m := by
  by_cases h : m < 2 ^ 53
  · left
    rw [roundDouble_of_lt h]
    exact h
  · right
    have hm : m ≠ 0 := by
      intro h0
      rw [h0] at h
      exact h (by norm_num)
    have hlog : 53 ≤ Nat.log2 m := (Nat.le_log2 hm).mpr (not_lt.mp h)
    have he : 2 ∣ 2 ^ (Nat.log2 m - 52) :=
      dvd_pow_self 2 (by omega)
    unfold roundDouble
    rw [if_neg h]
    simp only
    split_ifs
    · exact Dvd.dvd.mul_left he _
    · exact Dvd.dvd.mul_left he _
    · exact Dvd.dvd.mul_left he _
    · exact Dvd.dvd.mul_left he _

/-- Once the exact sum is an odd number from `2^53` on, the accumulator cannot
hold it: every rounded value from `2^53` on is even. -/
theorem foldl_addSqDiff_ne_of_odd (l : List (Byte × Byte)) (hl : l ≠ [])
    (hbig : 2 ^ 53 ≤ sumSqDiff l) (hodd : sumSqDiff l % 2 = 1) :
    l.foldl addSqDiff 0 ≠ sumSqDiff l := by
  obtain ⟨init, p, rfl⟩ : ∃ init p, l = init ++ [p] := by
    rcases List.eq_nil_or_concat l with h | ⟨init, p, h⟩
    · exact absurd h hl
    · exact ⟨init, p, by rw [h, List.concat_eq_append]⟩
  rw [List.foldl_concat, addSqDiff_eq]
  intro heq
  rcases roundDouble_small_or_even (List.foldl addSqDiff 0 init + sqDiff p) with h | h
  · omega
  · rw [heq] at h
    omega

/-- The frame loop from the state on entry, for a positive `int` frame size:
the frames processed and the accumulator, which folds the rounded addition over
exactly the bytes of those frames. -/
theorem frameLoop_entry (frame_size max_frames : Int) (data0 data1 : List Byte)
    (t : List Event) (hpos : 0 < frame_size) (hlt : frame_size < 2 ^ 31) :
    (frameLoop frame_size max_frames (loopEntry t data0 data1)).number_of_frames
      = (framesDone frame_size.toNat max_frames.toNat data0 data1 : Nat) ∧
    (frameLoop frame_size max_frames (loopEntry t data0 data1)).total_sq_error
      = ((data0.zip data1).take
          (framesDone frame_size.toNat max_frames.toNat data0 data1 * frame_size.toNat)).foldl
            addSqDiff 0 := by
  have h := frameLoopAux_spec frame_size frame_size.toNat (by omega)
    (toSizeT_of_pos hpos.le (by omega)) rfl max_frames.toNat (loopEntry t data0 data1)
  simpa [frameLoop, loopEntry] using h

theorem sqDiff_extremes : sqDiff ((0 : Byte), (255 : Byte)) = 65025 := by decide

/-- Two sources of `L` bytes, all 0 against all 255, of which `max_frames`
frames of `n` bytes are processed: when the number `K` of processed bytes is odd
and the exact sum has reached `2^53`, the accumulator differs from the exact sum
over the processed bytes. -/
theorem rounding_example (frame_size max_frames : Int) (n frames K L : Nat) (t : List Event)
    (hfs : frame_size = (n : Int)) (hmf : max_frames = (frames : Int)) (hn : 0 < n)
    (hlt : n < 2 ^ 31) (hK : K = frames * n) (hL : K ≤ L) (hodd : K % 2 = 1)
    (hbig : 2 ^ 53 ≤ 65025 * K) :
    (frameLoop frame_size max_frames
        (loopEntry t (List.replicate L 0) (List.replicate L 255))).number_of_frames
      = (frames : Int) ∧
    (frameLoop frame_size max_frames
        (loopEntry t (List.replicate L 0) (List.replicate L 255))).total_sq_error
      ≠ sumSqDiff (processedPairs frame_size
          (frameLoop frame_size max_frames
            (loopEntry t (List.replicate L 0) (List.replicate L 255)))
          (List.replicate L 0) (List.replicate L 255)) := by
  obtain ⟨hnof, htot⟩ := frameLoop_entry frame_size max_frames (List.replicate L 0)
    (List.replicate L 255) t (by omega) (by omega)
  have hfn : frame_size.toNat = n := by rw [hfs, Int.toNat_natCast]
  have hmn : max_frames.toNat = frames := by rw [hmf, Int.toNat_natCast]
  have hdiv : frames ≤ L / n := by
    rw [Nat.le_div_iff_mul_le hn, ← hK]
    exact hL
  have hk : framesDone n frames (List.replicate L (0 : Byte)) (List.replicate L (255 : Byte))
      = frames := by
    simp only [framesDone, List.length_replicate, min_self]
    exact min_eq_left hdiv
  rw [hfn, hmn, hk] at hnof htot
  have hpairs : (List.take K ((List.replicate L (0 : Byte)).zip (List.replicate L (255 : Byte))))
      = List.replicate K ((0 : Byte), (255 : Byte)) := by
    rw [List.zip_replicate, min_self, List.take_replicate, min_eq_left hL]
  have hsum : sumSqDiff (List.replicate K ((0 : Byte), (255 : Byte))) = 65025 * K := by
    rw [sumSqDiff_const _ 65025, List.length_replicate]
    intro p hp
    rw [List.eq_of_mem_replicate hp]
    exact sqDiff_extremes
  refine ⟨hnof, ?_⟩
  unfold processedPairs
  rw [hnof, Int.toNat_natCast, hfn, ← take_zip, htot, ← hK, hpairs]
  apply foldl_addSqDiff_ne_of_odd
  · intro hnil
    have := congrArg List.length hnil
    rw [List.length_replicate] at this
    simp only [List.length_nil] at this
    omega
  · rw [hsum]; exact hbig
  · rw [hsum]; omega

/-- C5, the claim as stated fails: two sources of 425201762403 bytes (4294967297
frames of 99 bytes), all 0 against all 255, with `max_frames` 2147483647. The
loop processes 2147483647 frames; the exact sum of the squared differences over
their 212600881053 bytes is odd and above `2^53`, and the double accumulator
does not hold it. -/
theorem frame_loop_exact_sum_counterexample :
    (frameLoop 99 2147483647
        (loopEntry [] (List.replicate 425201762403 0)
          (List.replicate 425201762403 255))).number_of_frames = 2147483647 ∧
    (frameLoop 99 2147483647
        (loopEntry [] (List.replicate 425201762403 0)
          (List.replicate 425201762403 255))).total_sq_error
      ≠ sumSqDiff (processedPairs 99
          (frameLoop 99 2147483647
            (loopEntry [] (List.replicate 425201762403 0) (List.replicate 425201762403 255)))
          (List.replicate 425201762403 0) (List.replicate 425201762403 255)) :=
  rounding_example 99 2147483647 99 2147483647 212600881053 425201762403 [] rfl rfl
    (by decide) (by decide) (by decide) (by decide) (by decide) (by decide)

/-- C5, amended. For a positive frame size, every pair of sources and every
`max_frames`, the loop processes
`min(max(max_frames, 0), whole frames of source 0, whole frames of source 1)`
frames; `total_sq_error` is the double-precision accumulation of `(b - a)^2`
over exactly the bytes of those frames, and equals their exact sum whenever that
sum is below `2^53`; sources that agree on those bytes and on their numbers of
whole frames give the same two values, so the bytes of a trailing partial frame
or of frames beyond `max_frames` contribute nothing. -/
theorem frame_loop_whole_frames (frame_size max_frames : Int) (data0 data1 : List Byte)
    (t : List Event) (hpos : 0 < frame_size) (hlt : frame_size < 2 ^ 31) :
    (frameLoop frame_size max_frames (loopEntry t data0 data1)).number_of_frames
      = min (max max_frames 0)
          (min ((data0.length : Int) / frame_size) ((data1.length : Int) / frame_size)) ∧
    (frameLoop frame_size max_frames (loopEntry t data0 data1)).total_sq_error
      = (processedPairs frame_size (frameLoop frame_size max_frames (loopEntry t data0 data1))
          data0 data1).foldl addSqDiff 0 ∧
    (sumSqDiff (processedPairs frame_size
        (frameLoop frame_size max_frames (loopEntry t data0 data1)) data0 data1) < 2 ^ 53 →
      (frameLoop frame_size max_frames (loopEntry t data0 data1)).total_sq_error
        = sumSqDiff (processedPairs frame_size
            (frameLoop frame_size max_frames (loopEntry t data0 data1)) data0 data1)) ∧
    (∀ (other0 other1 : List Byte),
      (other0.length : Int) / frame_size = (data0.length : Int) / frame_size →
      (other1.length : Int) / frame_size = (data1.length : Int) / frame_size →
      processedPairs frame_size (frameLoop frame_size max_frames (loopEntry t data0 data1))
          other0 other1
        = processedPairs frame_size (frameLoop frame_size max_frames (loopEntry t data0 data1))
          data0 data1 →
      (frameLoop frame_size max_frames (loopEntry t other0 other1)).number_of_frames
          = (frameLoop frame_size max_frames (loopEntry t data0 data1)).number_of_frames ∧
      (frameLoop frame_size max_frames (loopEntry t other0 other1)).total_sq_error
          = (frameLoop frame_size max_frames (loopEntry t data0 data1)).total_sq_error) := by
  obtain ⟨hnof, htot⟩ := frameLoop_entry frame_size max_frames data0 data1 t hpos hlt
  have hcast : ((frame_size.toNat : Nat) : Int) = frame_size := Int.toNat_of_nonneg hpos.le
  have hpairs : ∀ (a b : List Byte),
      processedPairs frame_size (frameLoop frame_size max_frames (loopEntry t data0 data1)) a b
        = (a.zip b).take
            (framesDone frame_size.toNat max_frames.toNat data0 data1 * frame_size.toNat) := by
    intro a b
    unfold processedPairs
    rw [hnof, Int.toNat_natCast, take_zip]
  have hfd := framesDone_cast frame_size.toNat max_frames data0 data1
  rw [hcast] at hfd
  refine ⟨by rw [hnof, hfd], by rw [hpairs, htot], ?_, ?_⟩
  · intro hsmall
    rw [hpairs] at hsmall ⊢
    rw [htot, foldl_addSqDiff_exact _ _ (by omega), Nat.zero_add]
  · intro other0 other1 h0 h1 hsame
    obtain ⟨hnof2, htot2⟩ := frameLoop_entry frame_size max_frames other0 other1 t hpos hlt
    have hfd2 := framesDone_cast frame_size.toNat max_frames other0 other1
    rw [hcast, h0, h1, ← hfd] at hfd2
    have hk : framesDone frame_size.toNat max_frames.toNat other0 other1
        = framesDone frame_size.toNat max_frames.toNat data0 data1 := by exact_mod_cast hfd2
    rw [hpairs, hpairs] at hsame
    rw [hnof, hnof2, htot, htot2, hk, hsame]
    exact ⟨rfl, rfl⟩

theorem frame_loop_whole_frames_witness :
    (0 : Int) < 2 ∧ (2 : Int) < 2 ^ 31 ∧
    (frameLoop 2 2 (loopEntry [] [1, 2, 3, 4, 5, 6, 7] [1, 5, 3, 4, 9])).number_of_frames = 2 ∧
    (frameLoop 2 2 (loopEntry [] [1, 2, 3, 4, 5, 6, 7] [1, 5, 3, 4, 9])).total_sq_error = 9 := by
  have h := frame_loop_whole_frames 2 2 [1, 2, 3, 4, 5, 6, 7] [1, 5, 3, 4, 9] [] (by decide)
    (by decide)
  exact ⟨by decide, by decide, h.1.trans (by decide), (h.2.1).trans (by decide)⟩

/-! ## Exits before the frame loop -/

theorem frameSize_of_representable (width height : Int) (hw : 1 ≤ width) (hh : 1 ≤ height)
    (hrep : width * height * 3 < 2 ^ 31) :
    frameSize width height = width * height * 3 / 2 ∧ 0 < frameSize width height := by
  have hpos : 1 ≤ width * height := by nlinarith
  have h1 : wrap32 (width * height) = width * height :=
    wrap32_of_range (by omega) (by omega)
  have h2 : wrap32 (width * height * 3) = width * height * 3 :=
    wrap32_of_range (by omega) (by omega)
  unfold frameSize
  rw [h1, h2, Int.tdiv_eq_ediv (by omega) (by norm_num)]
  constructor
  · rfl
  · omega

/-- C7. With at least five arguments, when the width or the height parses to a
value below 1, the run returns -4 in every environment (whatever the paths name,
whether or not the files exist, whatever their sizes); the only calls made are
the two `strtol`, so no file size is queried and no file is opened. -/
theorem args_error (w : World) (argv : List String) (hargc : 6 ≤ argv.length)
    (hbad : parseWidth argv < 1 ∨ parseHeight argv < 1) :
    (main w argv).return_status = some (-4) ∧
    (main w argv).stdout = [] ∧
    (main w argv).trace = [Event.strtol (argv.getD 3 ""), Event.strtol (argv.getD 4 "")] := by
  have h1 : ¬ argv.length < 6 := not_lt.mpr hargc
  unfold main
  simp only [if_neg h1, if_pos hbad]
  exact ⟨rfl, rfl, rfl⟩

theorem args_error_witness :
    parseWidth ["psnr", "a", "b", "wide", "2", "1"] = 0 ∧
    parseHeight ["psnr", "a", "b", "4", "-2", "1"] = -2 ∧
    (main (twoFiles [1, 2, 3] [1, 2, 3]) ["psnr", "a", "b", "wide", "2", "1"]).return_status
      = some (-4) ∧
    (main (twoFiles [1, 2, 3] [1, 2, 3]) ["psnr", "a", "b", "4", "-2", "1"]).return_status
      = some (-4) ∧
    (main (twoFiles [1, 2, 3] [1, 2, 3]) ["psnr", "a", "b", "0", "2", "1"]).trace
      = [Event.strtol "0", Event.strtol "2"] :=
  ⟨by decide, by decide,
    (args_error (twoFiles [1, 2, 3] [1, 2, 3]) ["psnr", "a", "b", "wide", "2", "1"] (by decide)
      (Or.inl (by decide))).1,
    (args_error (twoFiles [1, 2, 3] [1, 2, 3]) ["psnr", "a", "b", "4", "-2", "1"] (by decide)
      (Or.inr (by decide))).1,
    (args_error (twoFiles [1, 2, 3] [1, 2, 3]) ["psnr", "a", "b", "0", "2", "1"] (by decide)
      (Or.inl (by decide))).2.2⟩

/-- C8. With fewer than five arguments after the program name (`argc < 6`) the
run returns -1, the text on standard error contains `argv[0]`, nothing is
written to standard output, and no call is made: no argument is parsed and no
file is touched. -/
theorem usage_error (w : World) (argv : List String) (hargc : argv.length < 6) :
    (main w argv).return_status = some (-1) ∧
    (∀ prog : String, argv.head? = some prog →
      ∃ before after : String, (main w argv).stderr = before ++ prog ++ after) ∧
    (main w argv).stdout = [] ∧
    (main w argv).trace = [] := by
  unfold main
  simp only [if_pos hargc]
  refine ⟨rfl, ?_, rfl, rfl⟩
  intro prog hprog
  refine ⟨"Usage: ", " <yuv_file1> <yuv_file2> <width> <height> <max_frames>\n", ?_⟩
  cases argv with
  | nil => simp at hprog
  | cons a rest =>
    simp only [List.head?_cons, Option.some.injEq] at hprog
    rw [hprog]
    rfl

theorem usage_error_witness :
    ["psnr", "a", "b", "2", "2"].length < 6 ∧
    (main (twoFiles [] []) ["psnr", "a", "b", "2", "2"]).return_status = some (-1) ∧
    (main (twoFiles [] []) ["psnr", "a", "b", "2", "2"]).stderr
      = "Usage: psnr <yuv_file1> <yuv_file2> <width> <height> <max_frames>\n" ∧
    (main (twoFiles [] []) ["psnr", "a", "b", "2", "2"]).trace = [] := by
  have h := usage_error (twoFiles [] []) ["psnr", "a", "b", "2", "2"] (by decide)
  exact ⟨by decide, h.1, by decide, h.2.2.2⟩

/-! ## Runs without a processed frame -/

/-- The frame loop adds only `fread` calls to the trace. -/
theorem frameLoopAux_trace (frame_size : Int) :
    ∀ (remaining : Nat) (s : LoopState) (e : Event),
      e ∈ (frameLoopAux frame_size remaining s).trace →
        e ∈ s.trace ∨ ∃ file requested returned, e = Event.fread file requested returned := by
  intro remaining
  induction remaining with
  | zero =>
    intro s e he
    exact Or.inl he
  | succ k ih =>
    intro s e he
    unfold frameLoopAux at he
    simp only at he
    split_ifs at he with h0 h1
    · rcases ih _ e he with h | h
      · simp only [List.mem_append, List.mem_singleton] at h
        rcases h with (h | h) | h
        · exact Or.inl h
        · exact Or.inr ⟨_, _, _, h⟩
        · exact Or.inr ⟨_, _, _, h⟩
      · exact Or.inr h
    · simp only [List.mem_append, List.mem_singleton] at he
      rcases he with (h | h) | h
      · exact Or.inl h
      · exact Or.inr ⟨_, _, _, h⟩
      · exact Or.inr ⟨_, _, _, h⟩
    · simp only [List.mem_append, List.mem_singleton] at he
      rcases he with h | h
      · exact Or.inl h
      · exact Or.inr ⟨_, _, _, h⟩

/-- No frame is processed when the loop may not iterate or a first read is
short. -/
theorem frameLoop_no_frame (frame_size max_frames : Int) (t : List Event)
    (data0 data1 : List Byte)
    (h : max_frames ≤ 0 ∨ data0.length < toSizeT frame_size
      ∨ data1.length < toSizeT frame_size) :
    (frameLoop frame_size max_frames (loopEntry t data0 data1)).number_of_frames = 0 := by
  unfold frameLoop
  cases hk : (max_frames - (loopEntry t data0 data1).number_of_frames).toNat with
  | zero => rfl
  | succ k =>
    have hmax : 0 < max_frames := by
      simp only [loopEntry, sub_zero] at hk
      omega
    unfold frameLoopAux
    simp only [fread, loopEntry, List.drop_zero, List.length_take]
    rcases h with h | h | h
    · omega
    · rw [if_neg (by omega)]
    · by_cases h0 : min (toSizeT frame_size) data0.length = toSizeT frame_size
      · rw [if_pos h0, if_neg (by omega)]
      · rw [if_neg h0]

/-- C9. A run that passes every check and acquires its resources, but processes
no frame, returns 0, writes nothing to standard output and does not call
`mse2psnr`. No frame is processed when `max_frames` is 0 or negative, or when
the first read of either stream is short. -/
theorem zero_frames_silent (w : World) (argv : List String) (data0 data1 : List Byte)
    (h : ReachesLoop w argv data0 data1) :
    ((parseMaxFrames argv ≤ 0
        ∨ data0.length < toSizeT (frameSize (parseWidth argv) (parseHeight argv))
        ∨ data1.length < toSizeT (frameSize (parseWidth argv) (parseHeight argv))) →
      (main w argv).number_of_frames = 0) ∧
    ((main w argv).number_of_frames = 0 →
      (main w argv).return_status = some 0 ∧ (main w argv).stdout = [] ∧
      ∀ (samples : Int) (mse : Nat), Event.mse2psnr samples mse ∉ (main w argv).trace) := by
  rw [main_of_reachesLoop w argv data0 data1 h]
  constructor
  · intro hz
    exact frameLoop_no_frame _ _ _ data0 data1 hz
  · intro hz
    simp only [report] at hz ⊢
    rw [hz]
    refine ⟨rfl, rfl, ?_⟩
    intro samples mse hmem
    simp only [lt_self_iff_false, if_false, List.append_nil, gt_iff_lt, List.mem_append] at hmem
    rcases hmem with hmem | hmem
    · rcases frameLoopAux_trace _ _ _ _ hmem with h1 | ⟨_, _, _, h1⟩
      · simp [initialState, loopEntry, setupTrace] at h1
      · exact Event.noConfusion h1
    · simp [cleanup] at hmem

theorem zero_frames_silent_witness :
    ReachesLoop (twoFiles [1, 2, 3, 4, 5, 6] [1, 2, 3, 4, 5, 6])
      ["psnr", "a", "b", "2", "2", "0"] [1, 2, 3, 4, 5, 6] [1, 2, 3, 4, 5, 6] ∧
    parseMaxFrames ["psnr", "a", "b", "2", "2", "0"] ≤ 0 ∧
    (main (twoFiles [1, 2, 3, 4, 5, 6] [1, 2, 3, 4, 5, 6])
      ["psnr", "a", "b", "2", "2", "0"]).number_of_frames = 0 ∧
    (main (twoFiles [1, 2, 3, 4, 5, 6] [1, 2, 3, 4, 5, 6])
      ["psnr", "a", "b", "2", "2", "0"]).return_status = some 0 ∧
    (main (twoFiles [1, 2, 3, 4, 5, 6] [1, 2, 3, 4, 5, 6])
      ["psnr", "a", "b", "2", "2", "0"]).stdout = [] := by
  have hr : ReachesLoop (twoFiles [1, 2, 3, 4, 5, 6] [1, 2, 3, 4, 5, 6])
      ["psnr", "a", "b", "2", "2", "0"] [1, 2, 3, 4, 5, 6] [1, 2, 3, 4, 5, 6] :=
    { argc := by decide, width_ok := by decide, height_ok := by decide,
      size0_pos := by decide, size1_pos := by decide, size_eq := by decide,
      frame_size_ne := by decide, whole := by decide, open0 := by decide, open1 := by decide,
      alloc0 := by decide, alloc1 := by decide }
  have h := zero_frames_silent _ _ _ _ hr
  have hz := h.1 (Or.inl (by decide))
  exact ⟨hr, by decide, hz, (h.2 hz).1, (h.2 hz).2.1⟩

/-! ## Files beyond the 2 GiB limit -/

/-- C10, the code at the failing input: two files of `2^32 + 6` bytes, width 2,
height 2, `max_frames` 1. The length converted to `int` is 6, every check
passes, one frame is processed and the run returns 0 after printing 100: the
files are not rejected. -/
theorem oversized_file_accepted :
    (∀ slot : Int, (2 : Int) ^ 31 ≤ st_size oversizedFiles "a" slot) ∧
    (∀ slot : Int, get_file_size oversizedFiles "a" slot = 6) ∧
    (main oversizedFiles ["psnr", "a", "b", "2", "2", "1"]).return_status = some 0 ∧
    (main oversizedFiles ["psnr", "a", "b", "2", "2", "1"]).number_of_frames = 1 ∧
    (main oversizedFiles ["psnr", "a", "b", "2", "2", "1"]).stdout = [100] := by
  have hr : ReachesLoop oversizedFiles ["psnr", "a", "b", "2", "2", "1"]
      (List.replicate 4294967302 0) (List.replicate 4294967302 0) :=
    { argc := by decide, width_ok := by decide, height_ok := by decide,
      size0_pos := by decide, size1_pos := by decide, size_eq := by decide,
      frame_size_ne := by decide, whole := by decide, open0 := rfl, open1 := rfl,
      alloc0 := rfl, alloc1 := rfl }
  have hfs : frameSize (parseWidth ["psnr", "a", "b", "2", "2", "1"])
      (parseHeight ["psnr", "a", "b", "2", "2", "1"]) = 6 := by decide
  have hmf : parseMaxFrames ["psnr", "a", "b", "2", "2", "1"] = 1 := by decide
  obtain ⟨hnof, htot⟩ := frameLoop_entry 6 1 (List.replicate 4294967302 0)
    (List.replicate 4294967302 0) (setupTrace ["psnr", "a", "b", "2", "2", "1"])
    (by decide) (by decide)
  have hk : framesDone (6 : Int).toNat (1 : Int).toNat (List.replicate 4294967302 (0 : Byte))
      (List.replicate 4294967302 (0 : Byte)) = 1 := by
    unfold framesDone
    rw [List.length_replicate]
    decide
  rw [hk] at hnof htot
  have hzero : (frameLoop 6 1 (loopEntry (setupTrace ["psnr", "a", "b", "2", "2", "1"])
      (List.replicate 4294967302 0) (List.replicate 4294967302 0))).total_sq_error = 0 := by
    rw [htot]
    exact foldl_addSqDiff_diag _ (fun p hp => mem_zip_self _ p (List.mem_of_mem_take hp))
  rw [main_of_reachesLoop _ _ _ _ hr, hfs, hmf]
  refine ⟨fun _ => (by decide : (2 : Int) ^ 31 ≤ 4294967302),
    fun _ => (by decide : wrap32 4294967302 = 6), rfl, hnof, ?_⟩
  show (report oversizedFiles 6 (frameLoop 6 1 (loopEntry _ _ _))).stdout = [100]
  simp only [report]
  rw [hnof, hzero, if_pos (by decide)]
  simp only [Nat.cast_zero, mse2psnr_zero]


/-! ## The frame size -/

/-- C11, the code at the failing input: width 65536 and height 65536 pass the
argument check, the product wraps to 0 in 32-bit arithmetic, the frame size is
0 and the run stops at the remainder `size0 % frame_size` without returning.
With width and height 30000 the frame size is negative. -/
theorem frame_size_zero_trap :
    1 ≤ parseWidth ["psnr", "a", "b", "65536", "65536", "1"] ∧
    1 ≤ parseHeight ["psnr", "a", "b", "65536", "65536", "1"] ∧
    frameSize (parseWidth ["psnr", "a", "b", "65536", "65536", "1"])
      (parseHeight ["psnr", "a", "b", "65536", "65536", "1"]) = 0 ∧
    (main (twoFiles [1, 2, 3, 4, 5, 6] [1, 2, 3, 4, 5, 6])
      ["psnr", "a", "b", "65536", "65536", "1"]).return_status = none ∧
    frameSize 30000 30000 < 0 := by
  refine ⟨by decide, by decide, by decide, by decide, by decide⟩

/-- C12, the claim as stated fails: for width 3 and height 3 the program uses
13 bytes per frame, the planar layout of the specification has 9 + 1 + 1 = 11. -/
theorem frame_size_layout_counterexample :
    (1 : Int) ≤ 3 ∧ frameSize 3 3 = 13 ∧ planarLayoutBytes 3 3 = 11 ∧
      frameSize 3 3 ≠ planarLayoutBytes 3 3 := by
  refine ⟨by decide, by decide, by decide, by decide⟩

/-- C12, amended. For width and height at least 1 with `width * height * 3`
within `int`, the frame size of the program equals the byte length of the
planar 4:2:0 layout exactly when width and height are both even or both 1. -/
theorem frame_size_layout (width height : Int) (hw : 1 ≤ width) (hh : 1 ≤ height)
    (hrep : width * height * 3 < 2 ^ 31) :
    frameSize width height = planarLayoutBytes width height ↔
      ((width % 2 = 0 ∧ height % 2 = 0) ∨ (width = 1 ∧ height = 1)) := by
  rw [(frameSize_of_representable width height hw hh hrep).1]
  unfold planarLayoutBytes
  obtain ⟨a, r, hwa, hr⟩ : ∃ a r : Int, width = 2 * a + r ∧ (r = 0 ∨ r = 1) :=
    ⟨width / 2, width % 2, by omega, by omega⟩
  obtain ⟨b, t, hhb, ht⟩ : ∃ b t : Int, height = 2 * b + t ∧ (t = 0 ∨ t = 1) :=
    ⟨height / 2, height % 2, by omega, by omega⟩
  have ha : 0 ≤ a := by omega
  have hb : 0 ≤ b := by omega
  have hw2 : width / 2 = a := by omega
  have hh2 : height / 2 = b := by omega
  have hwm : width % 2 = r := by omega
  have hhm : height % 2 = t := by omega
  rw [hw2, hh2, hwm, hhm]
  have hab : 0 ≤ a * b := mul_nonneg ha hb
  rcases hr with hr | hr <;> rcases ht with ht | ht <;> subst hr <;> subst ht <;> subst hwa <;>
    subst hhb
  · have e : (2 * a + 0) * (2 * b + 0) * 3 = 2 * (6 * (a * b)) := by ring
    have e2 : (2 * a + 0) * (2 * b + 0) = 4 * (a * b) := by ring
    rw [e, e2, Int.mul_ediv_cancel_left _ (by norm_num)]
    constructor
    · intro _; exact Or.inl ⟨rfl, rfl⟩
    · intro _; ring
  · have e : (2 * a + 0) * (2 * b + 1) * 3 = 2 * (6 * (a * b) + 3 * a) := by ring
    have e2 : (2 * a + 0) * (2 * b + 1) = 4 * (a * b) + 2 * a := by ring
    rw [e, e2, Int.mul_ediv_cancel_left _ (by norm_num)]
    constructor
    · intro h; exfalso; omega
    · intro h; exfalso; omega
  · have e : (2 * a + 1) * (2 * b + 0) * 3 = 2 * (6 * (a * b) + 3 * b) := by ring
    have e2 : (2 * a + 1) * (2 * b + 0) = 4 * (a * b) + 2 * b := by ring
    rw [e, e2, Int.mul_ediv_cancel_left _ (by norm_num)]
    constructor
    · intro h; exfalso; omega
    · intro h; exfalso; omega
  · have e : (2 * a + 1) * (2 * b + 1) * 3 = 2 * (6 * (a * b) + 3 * a + 3 * b + 1) + 1 := by
      ring
    have e2 : (2 * a + 1) * (2 * b + 1) = 4 * (a * b) + 2 * a + 2 * b + 1 := by ring
    have e3 : (2 * (6 * (a * b) + 3 * a + 3 * b + 1) + 1) / 2
        = 6 * (a * b) + 3 * a + 3 * b + 1 := by omega
    rw [e, e2, e3]
    constructor
    · intro h
      right
      constructor <;> omega
    · intro h
      rcases h with h | h
      · exfalso; omega
      · have ha0 : a = 0 := by omega
        have hb0 : b = 0 := by omega
        rw [ha0, hb0]
        norm_num

theorem frame_size_layout_witness :
    (1 : Int) ≤ 2 ∧ (2 : Int) * 2 * 3 < 2 ^ 31 ∧ frameSize 2 2 = planarLayoutBytes 2 2 ∧
      planarLayoutBytes 2 2 = 4 + 1 + 1 :=
  ⟨by decide, by decide,
    (frame_size_layout 2 2 (by decide) (by decide) (by decide)).mpr (Or.inl ⟨rfl, rfl⟩),
    by decide⟩


/-! ## Parsing of the numeric arguments -/

theorem decimalValue_cons (c : Char) (cs : List Char) :
    decimalValue (c :: cs) = (c.toNat - 48) * 10 ^ cs.length + decimalValue cs := by
  unfold decimalValue
  rw [List.map_cons, List.reverse_cons, Nat.ofDigits_append, Nat.ofDigits_singleton,
    List.length_reverse, List.length_map]
  ring

/-- On a run of digits followed by nothing or by a non-digit, `digitsValue`
reads exactly the run. -/
theorem digitsValue_prefix (ds suffix : List Char) (hds : ∀ c ∈ ds, isdigit c = true)
    (hsuf : ∀ c, suffix.head? = some c → isdigit c = false) :
    ∀ acc : Nat, digitsValue acc (ds ++ suffix) = acc * 10 ^ ds.length + decimalValue ds := by
  induction ds with
  | nil =>
    intro acc
    cases suffix with
    | nil => simp [digitsValue, decimalValue]
    | cons c rest =>
      have hc := hsuf c rfl
      simp [digitsValue, decimalValue, hc]
  | cons c cs ih =>
    intro acc
    have hc : isdigit c = true := hds c (List.mem_cons_self c cs)
    have ih2 := ih (fun d hd => hds d (List.mem_cons_of_mem c hd)) (acc * 10 + (c.toNat - 48))
    rw [List.cons_append, digitsValue, if_pos hc, ih2, decimalValue_cons, List.length_cons]
    ring

/-- The call `strtol` with the conversion to `int`, on a non-empty run of digits
denoting a number within `int`, followed by nothing or by a non-digit. -/
theorem strtol_prefix (ds suffix : List Char) (hne : ds ≠ [])
    (hds : ∀ c ∈ ds, isdigit c = true)
    (hsuf : ∀ c, suffix.head? = some c → isdigit c = false)
    (hrange : decimalValue ds < 2 ^ 31) :
    wrap32 (strtol (String.mk (ds ++ suffix))) = (decimalValue ds : Int) := by
  cases ds with
  | nil => exact absurd rfl hne
  | cons c cs =>
    have hc : isdigit c = true := hds c (List.mem_cons_self c cs)
    have hcn : 48 ≤ c.toNat ∧ c.toNat ≤ 57 := by
      simpa [isdigit] using hc
    have hsp : ¬ isspace c = true := by
      simp [isspace]
      omega
    have hval := digitsValue_prefix (c :: cs) suffix hds hsuf 0
    rw [Nat.zero_mul, Nat.zero_add] at hval
    unfold strtol
    simp only [String.toList]
    rw [List.cons_append, List.dropWhile_cons_of_neg hsp]
    simp only
    rw [if_neg (by omega), if_neg (by omega), ← List.cons_append, hval]
    have h1 : ((decimalValue (c :: cs) : Nat) : Int) < 2 ^ 31 := by exact_mod_cast hrange
    have h2 : min ((decimalValue (c :: cs) : Nat) : Int) LONG_MAX
        = ((decimalValue (c :: cs) : Nat) : Int) := by
      apply min_eq_left
      unfold LONG_MAX
      omega
    rw [h2]
    exact wrap32_of_range (by omega) h1

/-- The trace a loop starts from does not influence what it counts,
accumulates, or reads. -/
theorem frameLoopAux_trace_irrelevant (frame_size : Int) :
    ∀ (remaining : Nat) (s s2 : LoopState),
      s.number_of_frames = s2.number_of_frames → s.total_sq_error = s2.total_sq_error →
      s.file0 = s2.file0 → s.file1 = s2.file1 →
      (frameLoopAux frame_size remaining s).number_of_frames
          = (frameLoopAux frame_size remaining s2).number_of_frames ∧
      (frameLoopAux frame_size remaining s).total_sq_error
          = (frameLoopAux frame_size remaining s2).total_sq_error ∧
      (frameLoopAux frame_size remaining s).file0
          = (frameLoopAux frame_size remaining s2).file0 ∧
      (frameLoopAux frame_size remaining s).file1
          = (frameLoopAux frame_size remaining s2).file1 := by
  intro remaining
  induction remaining with
  | zero =>
    intro s s2 hn ht h0 h1
    exact ⟨hn, ht, h0, h1⟩
  | succ k ih =>
    intro s s2 hn ht h0 h1
    unfold frameLoopAux
    simp only [h0, h1]
    split_ifs
    · exact ih _ _ (by simp only [hn]) (by simp only [ht]) rfl rfl
    · exact ⟨hn, ht, rfl, rfl⟩
    · exact ⟨hn, ht, rfl, rfl⟩

theorem frameLoop_trace_irrelevant (frame_size max_frames : Int) (s s2 : LoopState)
    (hn : s.number_of_frames = s2.number_of_frames)
    (ht : s.total_sq_error = s2.total_sq_error) (h0 : s.file0 = s2.file0)
    (h1 : s.file1 = s2.file1) :
    (frameLoop frame_size max_frames s).number_of_frames
        = (frameLoop frame_size max_frames s2).number_of_frames ∧
    (frameLoop frame_size max_frames s).total_sq_error
        = (frameLoop frame_size max_frames s2).total_sq_error := by
  unfold frameLoop
  rw [hn]
  have h := frameLoopAux_trace_irrelevant frame_size
    (max_frames - s2.number_of_frames).toNat s s2 hn ht h0 h1
  exact ⟨h.1, h.2.1⟩

theorem outcome_report_congr (w : World) (frame_size : Int) (s s2 : LoopState)
    (hn : s.number_of_frames = s2.number_of_frames)
    (ht : s.total_sq_error = s2.total_sq_error) :
    outcome (report w frame_size s) = outcome (report w frame_size s2) := by
  simp only [outcome, report, hn, ht]

/-- The outcome of a run depends on the arguments only through their count, the
two paths and the three parsed numbers. -/
theorem main_outcome_congr (w : World) (argv argv2 : List String)
    (hlen : argv.length < 6 ↔ argv2.length < 6)
    (h1 : argv.getD 1 "" = argv2.getD 1 "") (h2 : argv.getD 2 "" = argv2.getD 2 "")
    (hw : parseWidth argv = parseWidth argv2) (hh : parseHeight argv = parseHeight argv2)
    (hm : parseMaxFrames argv = parseMaxFrames argv2) :
    outcome (main w argv) = outcome (main w argv2) := by
  unfold main
  by_cases hl : argv.length < 6
  · rw [if_pos hl, if_pos (hlen.mp hl)]
    rfl
  · rw [if_neg hl, if_neg (fun h => hl (hlen.mpr h))]
    simp only []
    have hs0 : fileSize0 w argv = fileSize0 w argv2 := by unfold fileSize0; rw [h1]
    have hs1 : fileSize1 w argv = fileSize1 w argv2 := by unfold fileSize1; rw [h1, h2]
    rw [hs0, hs1, h1, h2, hw, hh, hm]
    by_cases c2 : parseWidth argv2 < 1 ∨ parseHeight argv2 < 1
    · rw [if_pos c2, if_pos c2]
      rfl
    rw [if_neg c2, if_neg c2]
    by_cases c3 : fileSize0 w argv2 ≤ 0 ∨ fileSize1 w argv2 ≤ 0
    · rw [if_pos c3, if_pos c3]
      rfl
    rw [if_neg c3, if_neg c3]
    by_cases c4 : fileSize0 w argv2 ≠ fileSize1 w argv2
    · rw [if_pos c4, if_pos c4]
      rfl
    rw [if_neg c4, if_neg c4]
    by_cases c5 : frameSize (parseWidth argv2) (parseHeight argv2) = 0
    · rw [if_pos c5, if_pos c5]
      rfl
    rw [if_neg c5, if_neg c5]
    by_cases c6 : Int.tmod (fileSize0 w argv2)
        (frameSize (parseWidth argv2) (parseHeight argv2)) ≠ 0
    · rw [if_pos c6, if_pos c6]
      rfl
    rw [if_neg c6, if_neg c6]
    cases w.fopen (argv2.getD 1 "") with
    | none => rfl
    | some data0 =>
      cases w.fopen (argv2.getD 2 "") with
      | none => rfl
      | some data1 =>
        simp only []
        by_cases c7 : w.calloc_ok 0 = false
        · rw [if_pos c7, if_pos c7]
          rfl
        rw [if_neg c7, if_neg c7]
        by_cases c8 : w.calloc_ok 1 = false
        · rw [if_pos c8, if_pos c8]
          rfl
        rw [if_neg c8, if_neg c8]
        apply outcome_report_congr
        · refine (frameLoop_trace_irrelevant _ _ _ _ ?_ ?_ ?_ ?_).1 <;> rfl
        · refine (frameLoop_trace_irrelevant _ _ _ _ ?_ ?_ ?_ ?_).2 <;> rfl

/-- C13. An argument made of a non-empty string of decimal digits denoting `n`,
with `n` within `int`, followed by nothing or by any suffix that starts with a
non-digit, parses to `n` as width, as height and as `max_frames`; the suffix
raises no error: the outcome of the run is that of the run given the digits
alone. -/
theorem numeric_prefix_parsing (ds suffix : List Char) (hne : ds ≠ [])
    (hds : ∀ c ∈ ds, isdigit c = true)
    (hsuf : ∀ c, suffix.head? = some c → isdigit c = false)
    (hrange : decimalValue ds < 2 ^ 31)
    (w : World) (prog file0 file1 x y : String) (rest : List String) :
    parseWidth (prog :: file0 :: file1 :: String.mk (ds ++ suffix) :: x :: y :: rest)
      = (decimalValue ds : Int) ∧
    parseHeight (prog :: file0 :: file1 :: x :: String.mk (ds ++ suffix) :: y :: rest)
      = (decimalValue ds : Int) ∧
    parseMaxFrames (prog :: file0 :: file1 :: x :: y :: String.mk (ds ++ suffix) :: rest)
      = (decimalValue ds : Int) ∧
    outcome (main w (prog :: file0 :: file1 :: String.mk (ds ++ suffix) :: x :: y :: rest))
      = outcome (main w (prog :: file0 :: file1 :: String.mk ds :: x :: y :: rest)) ∧
    outcome (main w (prog :: file0 :: file1 :: x :: String.mk (ds ++ suffix) :: y :: rest))
      = outcome (main w (prog :: file0 :: file1 :: x :: String.mk ds :: y :: rest)) ∧
    outcome (main w (prog :: file0 :: file1 :: x :: y :: String.mk (ds ++ suffix) :: rest))
      = outcome (main w (prog :: file0 :: file1 :: x :: y :: String.mk ds :: rest)) := by
  have hs := strtol_prefix ds suffix hne hds hsuf hrange
  have h0 := strtol_prefix ds [] hne hds (fun c hc => by simp at hc) hrange
  rw [List.append_nil] at h0
  refine ⟨hs, hs, hs, ?_, ?_, ?_⟩
  · exact main_outcome_congr w _ _ Iff.rfl rfl rfl (hs.trans h0.symm) rfl rfl
  · exact main_outcome_congr w _ _ Iff.rfl rfl rfl rfl (hs.trans h0.symm) rfl
  · exact main_outcome_congr w _ _ Iff.rfl rfl rfl rfl rfl (hs.trans h0.symm)

theorem numeric_prefix_parsing_witness :
    decimalValue "10".toList = 10 ∧
    parseWidth ["psnr", "a", "b", "10x", "2", "1"] = 10 ∧
    parseMaxFrames ["psnr", "a", "b", "4", "2", "10 frames"] = 10 ∧
    outcome (main (twoFiles [1, 2, 3] [1, 2, 3]) ["psnr", "a", "b", "10x", "2", "1"])
      = outcome (main (twoFiles [1, 2, 3] [1, 2, 3]) ["psnr", "a", "b", "10", "2", "1"]) := by
  have hv : decimalValue "10".toList = 10 := by decide
  have h := numeric_prefix_parsing "10".toList "x".toList (by decide) (by decide) (by decide)
    (by decide) (twoFiles [1, 2, 3] [1, 2, 3]) "psnr" "a" "b" "2" "1" []
  exact ⟨hv, by decide, by decide, h.2.2.2.1⟩


/-! ## The read cursors -/

/-- C14, the claim as stated fails: with frames of 2 bytes and two sources of 3
bytes, the second read of the first source delivers 1 byte and leaves its
cursor at 3, which is not a multiple of 2. -/
theorem cursor_counterexample :
    (frameLoop 2 5 (loopEntry [] [1, 2, 3] [1, 2, 3])).number_of_frames = 1 ∧
    (frameLoop 2 5 (loopEntry [] [1, 2, 3] [1, 2, 3])).file0.pos = 3 ∧
    ¬ (2 ∣ (frameLoop 2 5 (loopEntry [] [1, 2, 3] [1, 2, 3])).file0.pos) := by
  refine ⟨by decide, by decide, by decide⟩

/-- Where the frame loop leaves the two cursors, with `a` and `b` the bytes that
the sources hold from their cursors on and `k` the number of iterations with two
full reads: both cursors move by `k` frames; when the loop stops at a short read
of the first source, that read moves the first cursor to the end of its source;
when it stops at a short read of the second source, the first cursor has moved
by one more frame and the second is at the end of its source. -/
theorem frameLoopAux_cursor_exact (frame_size : Int) (n : Nat) (hn : 0 < n)
    (hs : toSizeT frame_size = n) :
    ∀ (remaining : Nat) (s : LoopState) (a b : Nat),
      a = s.file0.data.length - s.file0.pos → b = s.file1.data.length - s.file1.pos →
      (frameLoopAux frame_size remaining s).file0.pos = s.file0.pos +
        (if min remaining (min (a / n) (b / n)) < remaining then
          (if a / n = min remaining (min (a / n) (b / n)) then a
            else (min remaining (min (a / n) (b / n)) + 1) * n)
        else min remaining (min (a / n) (b / n)) * n) ∧
      (frameLoopAux frame_size remaining s).file1.pos = s.file1.pos +
        (if min remaining (min (a / n) (b / n)) < remaining
            ∧ a / n ≠ min remaining (min (a / n) (b / n)) then b
        else min remaining (min (a / n) (b / n)) * n) := by
  intro remaining
  induction remaining with
  | zero =>
    intro s a b _ _
    simp [frameLoopAux]
  | succ r ih =>
    intro s a b ha hb
    unfold frameLoopAux
    simp only [fread, hs, List.length_take, List.length_drop]
    rw [← ha, ← hb]
    by_cases hf0 : n ≤ a
    · rw [if_pos (min_eq_left hf0)]
      have qa : a / n = (a - n) / n + 1 := by rw [Nat.div_eq a n, if_pos ⟨hn, hf0⟩]
      by_cases hf1 : n ≤ b
      · rw [if_pos (min_eq_left hf1)]
        have qb : b / n = (b - n) / n + 1 := by rw [Nat.div_eq b n, if_pos ⟨hn, hf1⟩]
        obtain ⟨i0, i1⟩ := ih
          { number_of_frames := s.number_of_frames + 1
            total_sq_error := frameError frame_size
              (List.take n (List.drop s.file0.pos s.file0.data))
              (List.take n (List.drop s.file1.pos s.file1.data)) s.total_sq_error
            file0 := { data := s.file0.data, pos := s.file0.pos + min n a }
            file1 := { data := s.file1.data, pos := s.file1.pos + min n b }
            trace := s.trace ++ [Event.fread 0 n (min n a)] ++ [Event.fread 1 n (min n b)] }
          (a - n) (b - n) (by simp only; omega) (by simp only; omega)
        rw [i0, i1, qa, qb]
        simp only [min_eq_left hf0, min_eq_left hf1]
        generalize (a - n) / n = x
        generalize (b - n) / n = y
        have hk : min (r + 1) (min (x + 1) (y + 1)) = min r (min x y) + 1 := by omega
        rw [hk]
        generalize min r (min x y) = m
        simp only [Nat.add_mul, Nat.one_mul]
        constructor
        · split_ifs <;> omega
        · split_ifs <;> omega
      · have hlt : b < n := by omega
        have hb0 : b / n = 0 := Nat.div_eq_of_lt hlt
        have hmin : min n b = b := min_eq_right hlt.le
        have hne : min n b ≠ n := by rw [hmin]; omega
        rw [if_neg hne, qa, hb0]
        generalize (a - n) / n = x
        simp only [hmin, min_eq_left hf0, Nat.min_zero, Nat.zero_min, Nat.zero_add, Nat.one_mul,
          Nat.zero_mul]
        constructor
        · split_ifs <;> first | omega | contradiction
        · split_ifs <;> omega
    · have hlt : a < n := by omega
      have ha0 : a / n = 0 := Nat.div_eq_of_lt hlt
      have hmin : min n a = a := min_eq_right hlt.le
      have hne : min n a ≠ n := by rw [hmin]; omega
      rw [if_neg hne, ha0]
      simp only [hmin, Nat.min_zero, Nat.zero_min, Nat.zero_add, Nat.one_mul, Nat.zero_mul]
      constructor
      · split_ifs <;> omega
      · split_ifs <;> omega

/-- C14, amended. For a positive frame size `n`, every pair of sources and every
`max_frames`: a read that delivers a whole frame advances its cursor by exactly
`n`; with `k` the number of frames processed, when the loop ends at the frame
limit both cursors are at `k * n`; when it ends at a short read of the first
source, that cursor is at the end of its source and the second is at `k * n`;
when it ends at a short read of the second source, the first cursor is at
`(k + 1) * n` and the second at the end of its source, which lies below
`(k + 1) * n`. So each cursor ends at a whole multiple of the frame size or,
after a short read of its source, at the end of the source, and both end at
whole multiples when both sources consist of whole frames. -/
theorem cursors_whole_frames_or_end (frame_size max_frames : Int) (data0 data1 : List Byte)
    (t : List Event) (hpos : 0 < frame_size) (hlt : frame_size < 2 ^ 31) :
    (∀ s : Stream, (fread s (toSizeT frame_size)).1.length = toSizeT frame_size →
      (fread s (toSizeT frame_size)).2.pos = s.pos + frame_size.toNat) ∧
    (¬ (frameLoop frame_size max_frames (loopEntry t data0 data1)).number_of_frames < max_frames →
      (frameLoop frame_size max_frames (loopEntry t data0 data1)).file0.pos
        = (frameLoop frame_size max_frames (loopEntry t data0 data1)).number_of_frames.toNat
          * frame_size.toNat ∧
      (frameLoop frame_size max_frames (loopEntry t data0 data1)).file1.pos
        = (frameLoop frame_size max_frames (loopEntry t data0 data1)).number_of_frames.toNat
          * frame_size.toNat) ∧
    ((frameLoop frame_size max_frames (loopEntry t data0 data1)).number_of_frames < max_frames →
      data0.length
        < ((frameLoop frame_size max_frames (loopEntry t data0 data1)).number_of_frames.toNat + 1)
          * frame_size.toNat →
      (frameLoop frame_size max_frames (loopEntry t data0 data1)).file0.pos = data0.length ∧
      (frameLoop frame_size max_frames (loopEntry t data0 data1)).file1.pos
        = (frameLoop frame_size max_frames (loopEntry t data0 data1)).number_of_frames.toNat
          * frame_size.toNat) ∧
    ((frameLoop frame_size max_frames (loopEntry t data0 data1)).number_of_frames < max_frames →
      ((frameLoop frame_size max_frames (loopEntry t data0 data1)).number_of_frames.toNat + 1)
          * frame_size.toNat ≤ data0.length →
      (frameLoop frame_size max_frames (loopEntry t data0 data1)).file0.pos
        = ((frameLoop frame_size max_frames (loopEntry t data0 data1)).number_of_frames.toNat + 1)
          * frame_size.toNat ∧
      (frameLoop frame_size max_frames (loopEntry t data0 data1)).file1.pos = data1.length ∧
      data1.length
        < ((frameLoop frame_size max_frames (loopEntry t data0 data1)).number_of_frames.toNat + 1)
          * frame_size.toNat) ∧
    (frame_size.toNat ∣ (frameLoop frame_size max_frames (loopEntry t data0 data1)).file0.pos
      ∨ (frameLoop frame_size max_frames (loopEntry t data0 data1)).file0.pos = data0.length) ∧
    (frame_size.toNat ∣ (frameLoop frame_size max_frames (loopEntry t data0 data1)).file1.pos
      ∨ (frameLoop frame_size max_frames (loopEntry t data0 data1)).file1.pos = data1.length) ∧
    (frame_size.toNat ∣ data0.length → frame_size.toNat ∣ data1.length →
      frame_size.toNat ∣ (frameLoop frame_size max_frames (loopEntry t data0 data1)).file0.pos ∧
      frame_size.toNat ∣ (frameLoop frame_size max_frames (loopEntry t data0 data1)).file1.pos) := by
  have hn : 0 < frame_size.toNat := by omega
  have hs : toSizeT frame_size = frame_size.toNat := toSizeT_of_pos hpos.le (by omega)
  obtain ⟨hnof, -⟩ := frameLoop_entry frame_size max_frames data0 data1 t hpos hlt
  have hex := frameLoopAux_cursor_exact frame_size frame_size.toNat hn hs
    (max_frames - (loopEntry t data0 data1).number_of_frames).toNat (loopEntry t data0 data1)
    data0.length data1.length rfl rfl
  have hR : (max_frames - (loopEntry t data0 data1).number_of_frames).toNat = max_frames.toNat := by
    simp [loopEntry]
  rw [hR] at hex
  have hp0 : (frameLoop frame_size max_frames (loopEntry t data0 data1)).file0.pos
      = (frameLoopAux frame_size max_frames.toNat (loopEntry t data0 data1)).file0.pos := by
    unfold frameLoop; rw [hR]
  have hp1 : (frameLoop frame_size max_frames (loopEntry t data0 data1)).file1.pos
      = (frameLoopAux frame_size max_frames.toNat (loopEntry t data0 data1)).file1.pos := by
    unfold frameLoop; rw [hR]
  rw [hp0, hp1, hnof, Int.toNat_natCast]
  unfold framesDone
  obtain ⟨e0, e1⟩ := hex
  rw [e0, e1]
  simp only [loopEntry, Nat.zero_add]
  generalize hk : min max_frames.toNat
    (min (data0.length / frame_size.toNat) (data1.length / frame_size.toNat)) = k
  generalize hn0 : frame_size.toNat = n at *
  have hkR : k ≤ max_frames.toNat := by omega
  have hka : k ≤ data0.length / n := by omega
  have hkb : k ≤ data1.length / n := by omega
  have hlow0 : k * n ≤ data0.length := (Nat.le_div_iff_mul_le hn).mp hka
  have hlow1 : k * n ≤ data1.length := (Nat.le_div_iff_mul_le hn).mp hkb
  have hup0 : data0.length / n = k ↔ data0.length < (k + 1) * n := by
    rw [← Nat.div_lt_iff_lt_mul hn]; omega
  have hup1 : data1.length / n = k ↔ data1.length < (k + 1) * n := by
    rw [← Nat.div_lt_iff_lt_mul hn]; omega
  have hcase : k < max_frames.toNat → data0.length / n ≠ k → data1.length / n = k := by omega
  refine ⟨?_, ?_, ?_, ?_, ?_, ?_, ?_⟩
  · intro s hfull
    simp only [fread] at hfull ⊢
    rw [hfull, hs]
  · intro hend
    have : ¬ k < max_frames.toNat := by omega
    rw [if_neg this, if_neg (fun h => this h.1)]
    exact ⟨rfl, rfl⟩
  · intro hshort hlen
    have h1 : k < max_frames.toNat := by omega
    have h2 := hup0.mpr hlen
    rw [if_pos h1, if_pos h2, if_neg (fun h => h.2 h2)]
    exact ⟨rfl, rfl⟩
  · intro hshort hlen
    have h1 : k < max_frames.toNat := by omega
    have h2 : data0.length / n ≠ k := fun h => by have := hup0.mp h; omega
    rw [if_pos h1, if_neg h2, if_pos ⟨h1, h2⟩]
    exact ⟨rfl, rfl, hup1.mp (hcase h1 h2)⟩
  · by_cases h1 : k < max_frames.toNat
    · by_cases h2 : data0.length / n = k
      · rw [if_pos h1, if_pos h2]
        exact Or.inr rfl
      · rw [if_pos h1, if_neg h2]
        exact Or.inl (Dvd.intro_left _ rfl)
    · rw [if_neg h1]
      exact Or.inl (Dvd.intro_left _ rfl)
  · by_cases h1 : k < max_frames.toNat ∧ data0.length / n ≠ k
    · rw [if_pos h1]
      exact Or.inr rfl
    · rw [if_neg h1]
      exact Or.inl (Dvd.intro_left _ rfl)
  · intro hd0 hd1
    constructor
    · by_cases h1 : k < max_frames.toNat
      · by_cases h2 : data0.length / n = k
        · rw [if_pos h1, if_pos h2]
          exact hd0
        · rw [if_pos h1, if_neg h2]
          exact Dvd.intro_left _ rfl
      · rw [if_neg h1]
        exact Dvd.intro_left _ rfl
    · by_cases h1 : k < max_frames.toNat ∧ data0.length / n ≠ k
      · rw [if_pos h1]
        exact hd1
      · rw [if_neg h1]
        exact Dvd.intro_left _ rfl

theorem cursors_whole_frames_or_end_witness :
    (0 : Int) < 2 ∧ (2 : Int) < 2 ^ 31 ∧
    (fread { data := [1, 2, 3, 4], pos := 0 } (toSizeT 2)).2.pos = 2 ∧
    (frameLoop 2 1 (loopEntry [] [1, 2, 3, 4] [1, 2, 3, 4])).file0.pos = 1 * 2 ∧
    (frameLoop 2 5 (loopEntry [] [1, 2, 3, 4] [1, 2, 3, 4])).file0.pos = 4 ∧
    (frameLoop 2 5 (loopEntry [] [1, 2, 3, 4] [1, 2, 3, 4])).file1.pos = 2 * 2 ∧
    (frameLoop 2 5 (loopEntry [] [1, 2, 3, 4] [1, 2, 3])).file0.pos = (1 + 1) * 2 ∧
    (frameLoop 2 5 (loopEntry [] [1, 2, 3, 4] [1, 2, 3])).file1.pos = 3 := by
  have h := cursors_whole_frames_or_end 2 5 [1, 2, 3, 4] [1, 2, 3, 4] [] (by decide) (by decide)
  have h1 := cursors_whole_frames_or_end 2 1 [1, 2, 3, 4] [1, 2, 3, 4] [] (by decide) (by decide)
  have h5 := cursors_whole_frames_or_end 2 5 [1, 2, 3, 4] [1, 2, 3] [] (by decide) (by decide)
  have a := h.2.2.1 (by decide) (by decide)
  have b := h5.2.2.2.1 (by decide) (by decide)
  exact ⟨by decide, by decide, h.1 { data := [1, 2, 3, 4], pos := 0 } (by decide),
    (h1.2.1 (by decide)).1, a.1, a.2, b.1, b.2.1⟩


/-! ## Release of the resources -/

/-- The frame loop extends the trace by `fread` calls only. -/
theorem frameLoopAux_trace_append (frame_size : Int) :
    ∀ (remaining : Nat) (s : LoopState),
      ∃ l : List Event, (frameLoopAux frame_size remaining s).trace = s.trace ++ l ∧
        ∀ e ∈ l, ∃ file requested returned, e = Event.fread file requested returned := by
  intro remaining
  induction remaining with
  | zero =>
    intro s
    exact ⟨[], by simp [frameLoopAux], by simp⟩
  | succ k ih =>
    intro s
    unfold frameLoopAux
    simp only
    split_ifs
    · obtain ⟨l, hl, hfr⟩ := ih
        { number_of_frames := s.number_of_frames + 1
          total_sq_error := frameError frame_size (fread s.file0 (toSizeT frame_size)).1
            (fread s.file1 (toSizeT frame_size)).1 s.total_sq_error
          file0 := (fread s.file0 (toSizeT frame_size)).2
          file1 := (fread s.file1 (toSizeT frame_size)).2
          trace := s.trace
            ++ [Event.fread 0 (toSizeT frame_size) (fread s.file0 (toSizeT frame_size)).1.length]
            ++ [Event.fread 1 (toSizeT frame_size)
                (fread s.file1 (toSizeT frame_size)).1.length] }
      refine ⟨[Event.fread 0 (toSizeT frame_size) (fread s.file0 (toSizeT frame_size)).1.length,
        Event.fread 1 (toSizeT frame_size) (fread s.file1 (toSizeT frame_size)).1.length] ++ l,
        ?_, ?_⟩
      · rw [hl]
        simp
      · intro e he
        simp only [List.mem_append, List.mem_cons, List.mem_singleton, List.not_mem_nil,
          or_false] at he
        rcases he with (h | h) | h
        · exact ⟨_, _, _, h⟩
        · exact ⟨_, _, _, h⟩
        · exact hfr e h
    · refine ⟨[Event.fread 0 (toSizeT frame_size) (fread s.file0 (toSizeT frame_size)).1.length,
        Event.fread 1 (toSizeT frame_size) (fread s.file1 (toSizeT frame_size)).1.length],
        by simp, ?_⟩
      intro e he
      simp only [List.mem_cons, List.mem_singleton, List.not_mem_nil, or_false] at he
      rcases he with h | h
      · exact ⟨_, _, _, h⟩
      · exact ⟨_, _, _, h⟩
    · refine ⟨[Event.fread 0 (toSizeT frame_size) (fread s.file0 (toSizeT frame_size)).1.length],
        rfl, ?_⟩
      intro e he
      simp only [List.mem_singleton] at he
      exact ⟨_, _, _, he⟩

theorem countP_eq_zero_of_fread (p : Event → Bool)
    (hp : ∀ file requested returned, p (Event.fread file requested returned) = false)
    (l : List Event)
    (hl : ∀ e ∈ l, ∃ file requested returned, e = Event.fread file requested returned) :
    l.countP p = 0 := by
  rw [List.countP_eq_zero]
  intro e he
  obtain ⟨f, q, r, rfl⟩ := hl e he
  rw [hp]
  exact Bool.false_ne_true

theorem cleanup_counts (frame0 frame1 file0_ptr file1_ptr : Bool) (i : Nat) :
    (cleanup frame0 frame1 file0_ptr file1_ptr).countP isOpen = 0 ∧
    (cleanup frame0 frame1 file0_ptr file1_ptr).countP isAlloc = 0 ∧
    (cleanup frame0 frame1 file0_ptr file1_ptr).count (Event.fclose i)
      = (if file0_ptr = true ∧ i = 0 then 1 else 0) + (if file1_ptr = true ∧ i = 1 then 1 else 0) ∧
    (cleanup frame0 frame1 file0_ptr file1_ptr).count (Event.free i)
      = (if frame0 = true ∧ i = 0 then 1 else 0) + (if frame1 = true ∧ i = 1 then 1 else 0) := by
  cases frame0 <;> cases frame1 <;> cases file0_ptr <;> cases file1_ptr <;>
    simp [cleanup, isOpen, isAlloc, List.count_cons, List.countP_cons, @eq_comm _ 0 i,
      @eq_comm _ 1 i] <;> omega

theorem traceShape_fail (return_status : Int) (stderr : String) (t : List Event)
    (frame0 frame1 file0_ptr file1_ptr : Bool) (hrel : ∀ e ∈ t, isRelease e = false)
    (hopen : t.countP isOpen = (if file0_ptr = true then 1 else 0)
      + (if file1_ptr = true then 1 else 0))
    (halloc : t.countP isAlloc = (if frame0 = true then 1 else 0)
      + (if frame1 = true then 1 else 0))
    (hfile : file1_ptr = true → file0_ptr = true) (hframe : frame1 = true → frame0 = true) :
    TraceShape (fail return_status stderr t frame0 frame1 file0_ptr file1_ptr).trace :=
  ⟨t, frame0, frame1, file0_ptr, file1_ptr, rfl, hrel, hopen, halloc, hfile, hframe⟩

/-- Every run's trace has the shape `TraceShape`. -/
theorem main_trace_shape (w : World) (argv : List String) :
    TraceShape (main w argv).trace := by
  unfold main
  by_cases hl : argv.length < 6
  · rw [if_pos hl]
    exact traceShape_fail _ _ _ _ _ _ _ (by simp) rfl rfl (by simp) (by simp)
  rw [if_neg hl]
  simp only []
  by_cases h2 : parseWidth argv < 1 ∨ parseHeight argv < 1
  · rw [if_pos h2]
    exact traceShape_fail _ _ _ _ _ _ _ (by simp [isRelease]) rfl rfl (by simp) (by simp)
  rw [if_neg h2]
  by_cases h3 : fileSize0 w argv ≤ 0 ∨ fileSize1 w argv ≤ 0
  · rw [if_pos h3]
    exact traceShape_fail _ _ _ _ _ _ _ (by simp [isRelease]) rfl rfl (by simp) (by simp)
  rw [if_neg h3]
  by_cases h4 : fileSize0 w argv ≠ fileSize1 w argv
  · rw [if_pos h4]
    exact traceShape_fail _ _ _ _ _ _ _ (by simp [isRelease]) rfl rfl (by simp) (by simp)
  rw [if_neg h4]
  by_cases h5 : frameSize (parseWidth argv) (parseHeight argv) = 0
  · rw [if_pos h5]
    exact ⟨[Event.strtol (argv.getD 3 ""), Event.strtol (argv.getD 4 "")]
        ++ [Event.stat (argv.getD 1 ""), Event.stat (argv.getD 2 "")],
      false, false, false, false, by simp [cleanup], by simp [isRelease], rfl, rfl,
      by simp, by simp⟩
  rw [if_neg h5]
  by_cases h6 : Int.tmod (fileSize0 w argv)
      (frameSize (parseWidth argv) (parseHeight argv)) ≠ 0
  · rw [if_pos h6]
    exact traceShape_fail _ _ _ _ _ _ _ (by simp [isRelease]) rfl rfl (by simp) (by simp)
  rw [if_neg h6]
  cases w.fopen (argv.getD 1 "") with
  | none =>
    exact traceShape_fail _ _ _ _ _ _ _ (by simp [isRelease]) rfl rfl (by simp) (by simp)
  | some data0 =>
    cases w.fopen (argv.getD 2 "") with
    | none =>
      exact traceShape_fail _ _ _ _ _ _ _ (by simp [isRelease]) rfl rfl (by simp) (by simp)
    | some data1 =>
      simp only []
      by_cases h7 : w.calloc_ok 0 = false
      · rw [if_pos h7]
        exact traceShape_fail _ _ _ _ _ _ _ (by simp [isRelease]) rfl rfl (by simp) (by simp)
      rw [if_neg h7]
      by_cases h8 : w.calloc_ok 1 = false
      · rw [if_pos h8]
        exact traceShape_fail _ _ _ _ _ _ _ (by simp [isRelease]) rfl rfl (by simp) (by simp)
      rw [if_neg h8]
      obtain ⟨l, hl2, hfr⟩ := frameLoopAux_trace_append
        (frameSize (parseWidth argv) (parseHeight argv))
        (parseMaxFrames argv - 0).toNat
        { number_of_frames := 0, total_sq_error := 0, file0 := { data := data0, pos := 0 },
          file1 := { data := data1, pos := 0 },
          trace := [Event.strtol (argv.getD 3 ""), Event.strtol (argv.getD 4 "")]
            ++ [Event.stat (argv.getD 1 ""), Event.stat (argv.getD 2 "")]
            ++ [Event.fopen (argv.getD 1 "") true] ++ [Event.fopen (argv.getD 2 "") true]
            ++ [Event.calloc (toSizeT (frameSize (parseWidth argv) (parseHeight argv))) true]
            ++ [Event.calloc (toSizeT (frameSize (parseWidth argv) (parseHeight argv))) true]
            ++ [Event.strtol (argv.getD 5 "")] }
      have hl0 : l.countP isOpen = 0 :=
        countP_eq_zero_of_fread isOpen (fun _ _ _ => rfl) l hfr
      have hl1 : l.countP isAlloc = 0 :=
        countP_eq_zero_of_fread isAlloc (fun _ _ _ => rfl) l hfr
      have hlr : ∀ e ∈ l, isRelease e = false := by
        intro e he
        obtain ⟨f, q, r, rfl⟩ := hfr e he
        rfl
      simp only [report, frameLoop]
      rw [hl2]
      refine ⟨_, true, true, true, true, rfl, ?_, ?_, ?_, by simp, by simp⟩
      · intro e he
        simp only [List.mem_append, List.mem_cons, List.mem_singleton, List.not_mem_nil,
          or_false] at he
        rcases he with he | he
        · rcases he with he | he
          · rcases he with ((((((h | h) | h) | h) | h) | h) | h) <;>
              first
                | (rcases h with h | h <;> rw [h] <;> rfl)
                | (rw [h]; rfl)
          · exact hlr e he
        · split_ifs at he
          · simp only [List.mem_singleton] at he
            rw [he]; rfl
          · simp at he
      · simp only [List.countP_append, hl0]
        split_ifs <;> simp [isOpen, List.countP_cons]
      · simp only [List.countP_append, hl1]
        split_ifs <;> simp [isAlloc, List.countP_cons]

/-- C15. On every exit path of `main`, each file handle that was opened and each
frame buffer that was allocated is released exactly once, and nothing else is
released: `fclose` of file `i` occurs once when at least `i + 1` opens succeeded
and never otherwise, likewise `free` of frame `i` and the allocations; and every
release comes after every other call of the run. -/
theorem resources_released_once (w : World) (argv : List String) (i : Nat) :
    (main w argv).trace.count (Event.fclose i)
      = (if i < handlesOpened (main w argv).trace then 1 else 0) ∧
    (main w argv).trace.count (Event.free i)
      = (if i < buffersAllocated (main w argv).trace then 1 else 0) ∧
    ∃ pre post : List Event, (main w argv).trace = pre ++ post ∧
      (∀ e ∈ pre, isRelease e = false) ∧ (∀ e ∈ post, isRelease e = true) := by
  obtain ⟨pre, frame0, frame1, file0_ptr, file1_ptr, htr, hrel, hopen, halloc, hfile, hframe⟩ :=
    main_trace_shape w argv
  obtain ⟨hc0, hc1, hc2, hc3⟩ := cleanup_counts frame0 frame1 file0_ptr file1_ptr i
  have hpre0 : pre.count (Event.fclose i) = 0 := by
    rw [List.count_eq_zero]
    intro hmem
    have := hrel _ hmem
    simp [isRelease] at this
  have hpre1 : pre.count (Event.free i) = 0 := by
    rw [List.count_eq_zero]
    intro hmem
    have := hrel _ hmem
    simp [isRelease] at this
  rw [htr]
  unfold handlesOpened buffersAllocated
  rw [List.count_append, List.count_append, List.countP_append, List.countP_append, hpre0, hpre1,
    hc0, hc1, hc2, hc3, hopen, halloc]
  refine ⟨?_, ?_, pre, _, rfl, hrel, ?_⟩
  · cases file0_ptr <;> cases file1_ptr <;> simp at hfile ⊢
    all_goals split_ifs <;> omega
  · cases frame0 <;> cases frame1 <;> simp at hframe ⊢
    all_goals split_ifs <;> omega
  · intro e he
    cases frame0 <;> cases frame1 <;> cases file0_ptr <;> cases file1_ptr <;>
      simp [cleanup] at he <;> (try rcases he with rfl | rfl | rfl | rfl) <;> rfl

/-- The allocation of the second buffer fails after both files are open and the
first buffer is allocated: the run returns -5 after releasing the buffer and
closing both files. -/
theorem second_alloc_failure_trace :
    (main secondAllocFails ["psnr", "a", "b", "2", "2", "1"]).return_status = some (-5) ∧
    (main secondAllocFails ["psnr", "a", "b", "2", "2", "1"]).trace
      = [Event.strtol "2", Event.strtol "2", Event.stat "a", Event.stat "b",
         Event.fopen "a" true, Event.fopen "b" true, Event.calloc 6 true,
         Event.calloc 6 false, Event.free 0, Event.fclose 0, Event.fclose 1] := by
  refine ⟨by decide, by decide⟩


/-! ## Monotonicity of the accumulator -/

/-- Above `2^53` the rounded value is the significand `q` of 53 bits, or its
successor, times the spacing `2^e`. -/
theorem roundDouble_big (m : Nat) (h : 2 ^ 53 ≤ m) :
    1 ≤ Nat.log2 m - 52 ∧ Nat.log2 m = 52 + (Nat.log2 m - 52) ∧
    2 ^ 52 ≤ m / 2 ^ (Nat.log2 m - 52) ∧ m / 2 ^ (Nat.log2 m - 52) < 2 ^ 53 ∧
    (roundDouble m = m / 2 ^ (Nat.log2 m - 52) * 2 ^ (Nat.log2 m - 52) ∨
      roundDouble m = (m / 2 ^ (Nat.log2 m - 52) + 1) * 2 ^ (Nat.log2 m - 52)) := by
  have hm : m ≠ 0 := by
    intro h0
    rw [h0] at h
    exact absurd h (by norm_num)
  have hlog : 53 ≤ Nat.log2 m := (Nat.le_log2 hm).mpr h
  have hsplit : Nat.log2 m = 52 + (Nat.log2 m - 52) := by omega
  have hpos : 0 < 2 ^ (Nat.log2 m - 52) := Nat.pow_pos (by norm_num)
  have hlow : 2 ^ 52 * 2 ^ (Nat.log2 m - 52) ≤ m := by
    rw [← pow_add, ← hsplit]
    exact Nat.log2_self_le hm
  have hhigh : m < 2 ^ 53 * 2 ^ (Nat.log2 m - 52) := by
    rw [← pow_add]
    have : 53 + (Nat.log2 m - 52) = Nat.log2 m + 1 := by omega
    rw [this]
    exact Nat.lt_log2_self
  refine ⟨by omega, hsplit, (Nat.le_div_iff_mul_le hpos).mpr hlow,
    (Nat.div_lt_iff_lt_mul hpos).mpr hhigh, ?_⟩
  unfold roundDouble
  rw [if_neg (by omega)]
  simp only
  split_ifs
  · exact Or.inl rfl
  · exact Or.inr rfl
  · exact Or.inl rfl
  · exact Or.inr rfl

theorem isDouble_roundDouble (m : Nat) : isDouble (roundDouble m) := by
  by_cases h : m < 2 ^ 53
  · left
    rw [roundDouble_of_lt h]
    exact h
  · right
    obtain ⟨he, hsplit, hq0, hq1, hr⟩ := roundDouble_big m (not_lt.mp h)
    have hpos : 0 < 2 ^ (Nat.log2 m - 52) := Nat.pow_pos (by norm_num)
    have hdvd : 2 ^ (Nat.log2 m - 52) ∣ roundDouble m := by
      rcases hr with hr | hr <;> rw [hr] <;> exact Dvd.intro_left _ rfl
    have hle : roundDouble m ≤ 2 ^ 53 * 2 ^ (Nat.log2 m - 52) := by
      rcases hr with hr | hr <;> rw [hr] <;> exact Nat.mul_le_mul_right _ (by omega)
    have hne : roundDouble m ≠ 0 := by
      rcases hr with hr | hr <;> rw [hr] <;> exact Nat.mul_ne_zero (by omega) (by omega)
    rcases Nat.lt_or_eq_of_le hle with hlt | heq
    · have hlog : Nat.log2 (roundDouble m) < 53 + (Nat.log2 m - 52) := by
        rw [Nat.log2_lt hne, pow_add]
        exact hlt
      exact Dvd.dvd.trans (Nat.pow_dvd_pow 2 (by omega)) hdvd
    · rw [heq, ← pow_add, Nat.log2_two_pow]
      exact Nat.pow_dvd_pow 2 (by omega)

/-- Rounding never goes below a double that the exact value has reached. -/
theorem le_roundDouble {t m : Nat} (ht : isDouble t) (hle : t ≤ m) : t ≤ roundDouble m := by
  by_cases h : m < 2 ^ 53
  · rw [roundDouble_of_lt h]
    exact hle
  · obtain ⟨he, hsplit, hq0, hq1, hr⟩ := roundDouble_big m (not_lt.mp h)
    have hpos : 0 < 2 ^ (Nat.log2 m - 52) := Nat.pow_pos (by norm_num)
    have hfloor : m / 2 ^ (Nat.log2 m - 52) * 2 ^ (Nat.log2 m - 52) ≤ roundDouble m := by
      rcases hr with hr | hr <;> rw [hr]
      exact Nat.mul_le_mul_right _ (by omega)
    have hbin : 2 ^ 52 * 2 ^ (Nat.log2 m - 52)
        ≤ m / 2 ^ (Nat.log2 m - 52) * 2 ^ (Nat.log2 m - 52) :=
      Nat.mul_le_mul_right _ hq0
    have hm : m ≠ 0 := by
      intro h0
      rw [h0] at h
      exact h (by norm_num)
    by_cases ht0 : t = 0
    · rw [ht0]; exact Nat.zero_le _
    have hlogle : Nat.log2 t ≤ Nat.log2 m := by
      have : Nat.log2 t < Nat.log2 m + 1 := by
        rw [Nat.log2_lt ht0]
        exact lt_of_le_of_lt hle Nat.lt_log2_self
      omega
    rcases Nat.lt_or_eq_of_le hlogle with hlt | heq
    · -- a lower binade
      have h1 : t < 2 ^ (Nat.log2 t + 1) := Nat.lt_log2_self
      have h2 : 2 ^ (Nat.log2 t + 1) ≤ 2 ^ Nat.log2 m :=
        Nat.pow_le_pow_right (by norm_num) (by omega)
      have h3 : 2 ^ Nat.log2 m = 2 ^ 52 * 2 ^ (Nat.log2 m - 52) := by
        rw [← pow_add, ← hsplit]
      omega
    · -- the same binade
      rcases ht with ht | ht
      · have h53 : (2 : Nat) ^ 53 ≤ 2 ^ 52 * 2 ^ (Nat.log2 m - 52) := by
          have : (2 : Nat) ^ 53 = 2 ^ 52 * 2 ^ 1 := by norm_num
          rw [this]
          exact Nat.mul_le_mul_left _ (Nat.pow_le_pow_right (by norm_num) he)
        omega
      · rw [heq] at ht
        obtain ⟨c, hc⟩ := ht
        have hcq : c ≤ m / 2 ^ (Nat.log2 m - 52) := by
          rw [Nat.le_div_iff_mul_le hpos, Nat.mul_comm, ← hc]
          exact hle
        have : t ≤ m / 2 ^ (Nat.log2 m - 52) * 2 ^ (Nat.log2 m - 52) := by
          rw [hc, Nat.mul_comm]
          exact Nat.mul_le_mul_right _ hcq
        omega

theorem foldl_addSqDiff_mono (l : List (Byte × Byte)) :
    ∀ t : Nat, isDouble t → t ≤ l.foldl addSqDiff t ∧ isDouble (l.foldl addSqDiff t) := by
  induction l with
  | nil =>
    intro t ht
    exact ⟨le_refl t, ht⟩
  | cons p l ih =>
    intro t ht
    rw [List.foldl_cons, addSqDiff_eq]
    have h1 : t ≤ roundDouble (t + sqDiff p) := le_roundDouble ht (Nat.le_add_right _ _)
    obtain ⟨h2, h3⟩ := ih (roundDouble (t + sqDiff p)) (isDouble_roundDouble _)
    exact ⟨le_trans h1 h2, h3⟩

theorem afterIteration_mono (frame_size : Int) (s : LoopState)
    (hd : isDouble s.total_sq_error) :
    (afterIteration frame_size s).number_of_frames = s.number_of_frames + 1 ∧
    s.total_sq_error ≤ (afterIteration frame_size s).total_sq_error ∧
    isDouble (afterIteration frame_size s).total_sq_error := by
  obtain ⟨h1, h2⟩ := foldl_addSqDiff_mono
    ((((fread s.file0 (toSizeT frame_size)).1.zip (fread s.file1 (toSizeT frame_size)).1)).take
      frame_size.toNat) s.total_sq_error hd
  exact ⟨rfl, h1, h2⟩

/-- The loop either runs one iteration and goes on, or ends at a short read
with the counter and the accumulator as they were. -/
theorem frameLoopAux_succ (frame_size : Int) (remaining : Nat) (s : LoopState) :
    frameLoopAux frame_size (remaining + 1) s
        = frameLoopAux frame_size remaining (afterIteration frame_size s) ∨
    ((frameLoopAux frame_size (remaining + 1) s).number_of_frames = s.number_of_frames ∧
      (frameLoopAux frame_size (remaining + 1) s).total_sq_error = s.total_sq_error) := by
  rw [frameLoopAux]
  simp only
  split_ifs
  · exact Or.inl rfl
  · exact Or.inr ⟨rfl, rfl⟩
  · exact Or.inr ⟨rfl, rfl⟩

theorem frameLoopAux_mono (frame_size : Int) :
    ∀ (remaining : Nat) (s : LoopState), isDouble s.total_sq_error →
      s.number_of_frames ≤ (frameLoopAux frame_size remaining s).number_of_frames ∧
      s.total_sq_error ≤ (frameLoopAux frame_size remaining s).total_sq_error ∧
      isDouble (frameLoopAux frame_size remaining s).total_sq_error := by
  intro remaining
  induction remaining with
  | zero =>
    intro s hd
    exact ⟨le_refl _, le_refl _, hd⟩
  | succ k ih =>
    intro s hd
    obtain ⟨hn, ht, hd2⟩ := afterIteration_mono frame_size s hd
    rcases frameLoopAux_succ frame_size k s with h | ⟨h1, h2⟩
    · rw [h]
      obtain ⟨ihn, iht, ihd⟩ := ih (afterIteration frame_size s) hd2
      exact ⟨by omega, le_trans ht iht, ihd⟩
    · rw [h1, h2]
      exact ⟨le_refl _, le_refl _, hd⟩

/-- C16. Across the iterations of the frame loop neither field of the
accumulator state decreases or is reset. From a state whose `total_sq_error` is
a double: one iteration adds exactly 1 to `number_of_frames` and leaves
`total_sq_error` at least as large (and a double again); the loop is a sequence
of such iterations, ended by the bound or by a short read that changes neither
field; so both fields after the loop are at least what they were before. -/
theorem accumulator_monotone (frame_size : Int) (remaining : Nat) (s : LoopState)
    (hd : isDouble s.total_sq_error) :
    ((afterIteration frame_size s).number_of_frames = s.number_of_frames + 1 ∧
      s.total_sq_error ≤ (afterIteration frame_size s).total_sq_error ∧
      isDouble (afterIteration frame_size s).total_sq_error) ∧
    (frameLoopAux frame_size (remaining + 1) s
        = frameLoopAux frame_size remaining (afterIteration frame_size s) ∨
      ((frameLoopAux frame_size (remaining + 1) s).number_of_frames = s.number_of_frames ∧
        (frameLoopAux frame_size (remaining + 1) s).total_sq_error = s.total_sq_error)) ∧
    (s.number_of_frames ≤ (frameLoopAux frame_size remaining s).number_of_frames ∧
      s.total_sq_error ≤ (frameLoopAux frame_size remaining s).total_sq_error) := by
  obtain ⟨h1, h2, _⟩ := frameLoopAux_mono frame_size remaining s hd
  exact ⟨afterIteration_mono frame_size s hd, frameLoopAux_succ frame_size remaining s, h1, h2⟩

theorem accumulator_monotone_witness :
    isDouble (loopEntry [] [1, 2, 3, 4] [2, 2, 3, 9]).total_sq_error ∧
    (afterIteration 2 (loopEntry [] [1, 2, 3, 4] [2, 2, 3, 9])).number_of_frames = 0 + 1 ∧
    (0 : Nat) ≤ (afterIteration 2 (loopEntry [] [1, 2, 3, 4] [2, 2, 3, 9])).total_sq_error ∧
    (afterIteration 2 (loopEntry [] [1, 2, 3, 4] [2, 2, 3, 9])).total_sq_error = 1 ∧
    (frameLoopAux 2 2 (loopEntry [] [1, 2, 3, 4] [2, 2, 3, 9])).total_sq_error = 26 := by
  have hd : isDouble (loopEntry [] [1, 2, 3, 4] [2, 2, 3, 9]).total_sq_error :=
    Or.inl (by decide)
  have h := accumulator_monotone 2 1 (loopEntry [] [1, 2, 3, 4] [2, 2, 3, 9]) hd
  exact ⟨hd, h.1.1, h.1.2.1, by decide, by decide⟩


/-! ## The range of the reported value -/

/-- Two sources of `L` bytes, all 0 against all 255: the loop processes
`frames` frames and, below `2^53`, accumulates exactly 65025 per byte. -/
theorem uniform_sources_exact (frame_size max_frames : Int) (n frames K L : Nat)
    (t : List Event) (hfs : frame_size = (n : Int)) (hn : 0 < n) (hlt : n < 2 ^ 31)
    (hframes : frames = min max_frames.toNat (L / n)) (hK : K = frames * n)
    (hsmall : 65025 * K < 2 ^ 53) :
    (frameLoop frame_size max_frames
        (loopEntry t (List.replicate L 0) (List.replicate L 255))).number_of_frames
      = (frames : Int) ∧
    (frameLoop frame_size max_frames
        (loopEntry t (List.replicate L 0) (List.replicate L 255))).total_sq_error
      = 65025 * K := by
  obtain ⟨hnof, htot⟩ := frameLoop_entry frame_size max_frames (List.replicate L 0)
    (List.replicate L 255) t (by omega) (by omega)
  have hfn : frame_size.toNat = n := by rw [hfs, Int.toNat_natCast]
  have hk : framesDone n max_frames.toNat (List.replicate L (0 : Byte))
      (List.replicate L (255 : Byte)) = frames := by
    simp only [framesDone, List.length_replicate, min_self]
    exact hframes.symm
  rw [hfn, hk] at hnof htot
  have hKL : K ≤ L := by
    rw [hK]
    have h1 : frames ≤ L / n := by rw [hframes]; exact min_le_right _ _
    exact le_trans (Nat.mul_le_mul_right n h1) (Nat.div_mul_le_self L n)
  have hpairs : (List.take K ((List.replicate L (0 : Byte)).zip (List.replicate L (255 : Byte))))
      = List.replicate K ((0 : Byte), (255 : Byte)) := by
    rw [List.zip_replicate, min_self, List.take_replicate, min_eq_left hKL]
  have hsum : sumSqDiff (List.replicate K ((0 : Byte), (255 : Byte))) = 65025 * K := by
    rw [sumSqDiff_const _ 65025, List.length_replicate]
    intro p hp
    rw [List.eq_of_mem_replicate hp]
    exact sqDiff_extremes
  refine ⟨hnof, ?_⟩
  rw [htot, ← hK, hpairs, foldl_addSqDiff_exact _ _ (by rw [hsum]; omega), hsum, Nat.zero_add]

theorem report_number_of_frames (w : World) (frame_size : Int) (s : LoopState) :
    (report w frame_size s).number_of_frames = s.number_of_frames := rfl

theorem report_total_sq_error (w : World) (frame_size : Int) (s : LoopState) :
    (report w frame_size s).total_sq_error = s.total_sq_error := rfl

/-- C17, the code at the failing input: two files of `2^32 + 6` bytes, all 0
against all 255, width 2, height 2, `max_frames` 2147483647. The sizes truncate
to 6 and pass the checks; 715827883 frames (4294967298 bytes) are compared, the
`int` product `number_of_frames * frame_size` wraps to 2, and `mse2psnr` is
called with 2 samples and a squared error of `65025 * 4294967298`. The value
printed is `10 * log10(1 / 2147483649)` (clamped above at 100): the argument is
below 1, so for the decimal logarithm the value is negative, about -93.3. -/
theorem oversized_psnr_below_zero (log10 : ℚ → ℚ) :
    (main (oversizedPair log10) ["psnr", "a", "b", "2", "2", "2147483647"]).return_status
      = some 0 ∧
    (main (oversizedPair log10) ["psnr", "a", "b", "2", "2", "2147483647"]).number_of_frames
      = 715827883 ∧
    (main (oversizedPair log10) ["psnr", "a", "b", "2", "2", "2147483647"]).total_sq_error
      = 65025 * 4294967298 ∧
    Event.mse2psnr 2 (65025 * 4294967298)
      ∈ (main (oversizedPair log10) ["psnr", "a", "b", "2", "2", "2147483647"]).trace ∧
    (main (oversizedPair log10) ["psnr", "a", "b", "2", "2", "2147483647"]).stdout
      = [min 100 (10 * log10 (1 / 2147483649))] ∧
    (1 : ℚ) / 2147483649 < 1 := by
  have hsz0 : fileSize0 (oversizedPair log10) ["psnr", "a", "b", "2", "2", "2147483647"] = 6 :=
    (by decide : wrap32 4294967302 = 6)
  have hsz1 : fileSize1 (oversizedPair log10) ["psnr", "a", "b", "2", "2", "2147483647"] = 6 :=
    (by decide : wrap32 4294967302 = 6)
  have hfs : frameSize (parseWidth ["psnr", "a", "b", "2", "2", "2147483647"])
      (parseHeight ["psnr", "a", "b", "2", "2", "2147483647"]) = 6 := by decide
  have hr : ReachesLoop (oversizedPair log10) ["psnr", "a", "b", "2", "2", "2147483647"]
      (List.replicate 4294967302 0) (List.replicate 4294967302 255) :=
    { argc := by decide, width_ok := by decide, height_ok := by decide,
      size0_pos := by rw [hsz0]; decide, size1_pos := by rw [hsz1]; decide,
      size_eq := by rw [hsz0, hsz1],
      frame_size_ne := by decide, whole := by rw [hsz0, hfs]; decide, open0 := rfl, open1 := rfl,
      alloc0 := rfl, alloc1 := rfl }
  have hmf : parseMaxFrames ["psnr", "a", "b", "2", "2", "2147483647"] = 2147483647 := by
    decide
  obtain ⟨hnof, htot⟩ := uniform_sources_exact 6 2147483647 6 715827883 4294967298 4294967302
    (setupTrace ["psnr", "a", "b", "2", "2", "2147483647"]) rfl (by norm_num) (by norm_num)
    (by norm_num) (by norm_num) (by norm_num)
  have hmain := main_of_reachesLoop _ _ _ _ hr
  rw [hfs, hmf] at hmain
  have hw : wrap32 (715827883 * 6) = 2 := by decide
  refine ⟨?_, ?_, ?_, ?_, ?_, by norm_num⟩
  · rw [hmain]; rfl
  · rw [hmain, report_number_of_frames, initialState, hnof]
    norm_num
  · rw [hmain, report_total_sq_error, initialState, htot]
  · rw [hmain]
    simp only [report, initialState]
    rw [hnof, htot, if_pos (by decide)]
    simp only [Nat.cast_ofNat, hw, List.mem_append, List.mem_singleton, true_or, or_true]
  · rw [hmain]
    simp only [report, initialState]
    rw [hnof, htot, if_pos (by decide)]
    simp only [Nat.cast_ofNat, hw]
    rw [mse2psnr_of_pos _ _ _ _ (by norm_num)]
    simp only [oversizedPair]
    norm_num


theorem mse2psnr_le_100 (log10 : ℚ → ℚ) (samples peak mse : ℚ) :
    mse2psnr log10 samples peak mse ≤ 100 :=
  clamp_le_max _

/-- Within the 2 GiB limit the value reported lies in `[0, 100]`, for every
`log10` that is non-negative from 1 on: the squared error is at most
`255^2 * samples`, so the argument of `log10` is at least 1. -/
theorem psnr_in_range_of_validated (w : World) (argv : List String) (data0 data1 : List Byte)
    (h : Validated w argv data0 data1) (hlog : ∀ x : ℚ, 1 ≤ x → 0 ≤ w.log10 x)
    (hframes : 0 < (main w argv).number_of_frames) :
    ∃ psnr : ℚ, (main w argv).stdout = [psnr] ∧ 0 ≤ psnr ∧ psnr ≤ 100 := by
  obtain ⟨n, k, hn, hfs, hk, hk0, hk1, hnof, htot, hout, _⟩ := h.exact
  have hkpos : 0 < k := by
    rw [hnof] at hframes
    exact_mod_cast hframes
  refine ⟨_, hout hkpos, ?_, (mse2psnr_le_100 _ _ _ _)⟩
  have hbound : (main w argv).total_sq_error ≤ 65025 * (k * n) := by
    rw [htot]
    refine le_trans (sumSqDiff_le _) (Nat.mul_le_mul_left _ ?_)
    rw [List.length_take]
    exact min_le_left _ _
  rcases Nat.eq_zero_or_pos (main w argv).total_sq_error with hz | hp
  · rw [hz, Nat.cast_zero, mse2psnr_zero]
    norm_num
  · have hpq : (0 : ℚ) < ((main w argv).total_sq_error : ℚ) := by exact_mod_cast hp
    rw [mse2psnr_of_pos _ _ _ _ hpq]
    apply le_min (by norm_num)
    have hratio : (1 : ℚ) ≤ 255 * 255 * ((k : ℚ) * (n : ℚ))
        / ((main w argv).total_sq_error : ℚ) := by
      rw [one_le_div hpq]
      have : (((main w argv).total_sq_error : Nat) : ℚ) ≤ ((65025 * (k * n) : Nat) : ℚ) := by
        exact_mod_cast hbound
      push_cast at this
      linarith
    have := hlog _ hratio
    linarith

/-! ## Exactness and the sample count within the 2 GiB limit -/

/-- C18. In a validated run (files below `2^31` bytes) the accumulator is exact
at every point of the loop: after any number `j` of the bytes compared, the
rounded accumulation over those `j` byte pairs equals the exact integer sum
of their squared differences, which is at most `65025 * j`, itself below
`2^53`; and the value after the loop is the one for all bytes compared. -/
theorem accumulator_exact_validated (w : World) (argv : List String)
    (data0 data1 : List Byte) (h : Validated w argv data0 data1) (j : Nat)
    (hj : j ≤ (main w argv).number_of_frames.toNat
      * (frameSize (parseWidth argv) (parseHeight argv)).toNat) :
    ((data0.zip data1).take j).foldl addSqDiff 0 = sumSqDiff ((data0.zip data1).take j) ∧
    sumSqDiff ((data0.zip data1).take j) ≤ 65025 * j ∧
    65025 * j < 2 ^ 53 ∧
    (main w argv).total_sq_error
      = ((data0.zip data1).take ((main w argv).number_of_frames.toNat
          * (frameSize (parseWidth argv) (parseHeight argv)).toNat)).foldl addSqDiff 0 := by
  obtain ⟨n, k, hn, hfs, hk, hk0, hk1, hnof, htot, _, _⟩ := h.exact
  rw [hnof, hfs, Int.toNat_natCast, Int.toNat_natCast] at hj ⊢
  have hlim := h.limit0
  have hb : sumSqDiff ((data0.zip data1).take j) ≤ 65025 * j := by
    refine le_trans (sumSqDiff_le _) (Nat.mul_le_mul_left _ ?_)
    rw [List.length_take]
    exact min_le_left _ _
  have hsmall : 65025 * j < 2 ^ 53 := by omega
  have hbK : sumSqDiff ((data0.zip data1).take (k * n)) ≤ 65025 * (k * n) := by
    refine le_trans (sumSqDiff_le _) (Nat.mul_le_mul_left _ ?_)
    rw [List.length_take]
    exact min_le_left _ _
  refine ⟨?_, hb, hsmall, ?_⟩
  · rw [foldl_addSqDiff_exact _ _ (by omega), Nat.zero_add]
  · rw [htot, foldl_addSqDiff_exact _ _ (by omega), Nat.zero_add]

theorem accumulator_exact_validated_witness :
    Validated (twoFiles [10, 20, 30, 40, 50, 60] [10, 20, 35, 40, 50, 60])
        ["psnr", "a", "b", "2", "2", "1"] [10, 20, 30, 40, 50, 60] [10, 20, 35, 40, 50, 60] ∧
    ((([10, 20, 30, 40, 50, 60] : List Byte).zip [10, 20, 35, 40, 50, 60]).take 3).foldl
      addSqDiff 0 = 25 ∧
    (main (twoFiles [10, 20, 30, 40, 50, 60] [10, 20, 35, 40, 50, 60])
        ["psnr", "a", "b", "2", "2", "1"]).total_sq_error = 25 := by
  have hv : Validated (twoFiles [10, 20, 30, 40, 50, 60] [10, 20, 35, 40, 50, 60])
      ["psnr", "a", "b", "2", "2", "1"] [10, 20, 30, 40, 50, 60] [10, 20, 35, 40, 50, 60] :=
    { argc := by decide, width_ok := by decide, height_ok := by decide,
      size0_pos := by decide, size1_pos := by decide, size_eq := by decide,
      frame_size_ne := by decide, whole := by decide, open0 := by decide, open1 := by decide,
      alloc0 := by decide, alloc1 := by decide, frame_size_pos := by decide,
      length0 := by decide, length1 := by decide, limit0 := by decide, limit1 := by decide }
  have h := accumulator_exact_validated _ _ _ _ hv 3 (by decide)
  exact ⟨hv, h.1.trans (by decide), h.2.2.2.trans (by decide)⟩

/-- C19. In a validated run the `int` product `number_of_frames * frame_size`
does not overflow: it is at most the size of the files, hence below `2^31`, the
conversion to `int` leaves it unchanged, it is the number of byte pairs
compared, and it is the sample count that `mse2psnr` receives. -/
theorem samples_no_overflow (w : World) (argv : List String) (data0 data1 : List Byte)
    (h : Validated w argv data0 data1) :
    (main w argv).number_of_frames * frameSize (parseWidth argv) (parseHeight argv)
      ≤ (data0.length : Int) ∧
    (data0.length : Int) = st_size w (argv.getD 1 "") w.stack ∧
    (main w argv).number_of_frames * frameSize (parseWidth argv) (parseHeight argv)
      ≤ 2 ^ 31 - 1 ∧
    wrap32 ((main w argv).number_of_frames * frameSize (parseWidth argv) (parseHeight argv))
      = (main w argv).number_of_frames * frameSize (parseWidth argv) (parseHeight argv) ∧
    (((data0.zip data1).take ((main w argv).number_of_frames.toNat
        * (frameSize (parseWidth argv) (parseHeight argv)).toNat)).length : Int)
      = (main w argv).number_of_frames * frameSize (parseWidth argv) (parseHeight argv) ∧
    (0 < (main w argv).number_of_frames →
      Event.mse2psnr
          ((main w argv).number_of_frames * frameSize (parseWidth argv) (parseHeight argv))
          (main w argv).total_sq_error ∈ (main w argv).trace) := by
  obtain ⟨n, k, hn, hfs, hk, hk0, hk1, hnof, htot, _, htr⟩ := h.exact
  have hlim := h.limit0
  rw [hnof, hfs, Int.toNat_natCast, Int.toNat_natCast]
  have hle : ((k : Int) * (n : Int)) ≤ (data0.length : Int) := by exact_mod_cast hk0
  have hlt : (data0.length : Int) < 2 ^ 31 := by exact_mod_cast hlim
  have hnn : (0 : Int) ≤ (k : Int) * (n : Int) := by positivity
  refine ⟨hle, h.length0.symm, by omega, wrap32_of_range (by omega) (by omega), ?_, ?_⟩
  · rw [List.length_take, List.length_zip]
    have : min (k * n) (min data0.length data1.length) = k * n := by omega
    rw [this]
    push_cast
    rfl
  · intro hpos
    exact htr (by exact_mod_cast hpos)

theorem samples_no_overflow_witness :
    Validated (twoFiles [10, 20, 30, 40, 50, 60] [10, 20, 35, 40, 50, 60])
        ["psnr", "a", "b", "2", "2", "1"] [10, 20, 30, 40, 50, 60] [10, 20, 35, 40, 50, 60] ∧
    wrap32 ((main (twoFiles [10, 20, 30, 40, 50, 60] [10, 20, 35, 40, 50, 60])
        ["psnr", "a", "b", "2", "2", "1"]).number_of_frames
      * frameSize (parseWidth ["psnr", "a", "b", "2", "2", "1"])
          (parseHeight ["psnr", "a", "b", "2", "2", "1"])) = 6 := by
  have hv : Validated (twoFiles [10, 20, 30, 40, 50, 60] [10, 20, 35, 40, 50, 60])
      ["psnr", "a", "b", "2", "2", "1"] [10, 20, 30, 40, 50, 60] [10, 20, 35, 40, 50, 60] :=
    { argc := by decide, width_ok := by decide, height_ok := by decide,
      size0_pos := by decide, size1_pos := by decide, size_eq := by decide,
      frame_size_ne := by decide, whole := by decide, open0 := by decide, open1 := by decide,
      alloc0 := by decide, alloc1 := by decide, frame_size_pos := by decide,
      length0 := by decide, length1 := by decide, limit0 := by decide, limit1 := by decide }
  have h := samples_no_overflow _ _ _ _ hv
  exact ⟨hv, h.2.2.2.1.trans (by decide)⟩


/-! ## Symmetry in the two files -/

theorem addSqDiff_swap (t : Nat) (p : Byte × Byte) : addSqDiff t p.swap = addSqDiff t p := by
  unfold addSqDiff
  simp only [Prod.fst_swap, Prod.snd_swap]
  congr 2
  ring_nf

theorem foldl_addSqDiff_swap (l : List (Byte × Byte)) :
    ∀ t : Nat, (l.map Prod.swap).foldl addSqDiff t = l.foldl addSqDiff t := by
  induction l with
  | nil => intro t; rfl
  | cons p l ih =>
    intro t
    rw [List.map_cons, List.foldl_cons, List.foldl_cons, addSqDiff_swap, ih]

theorem frameError_swap (frame_size : Int) (frame0 frame1 : List Byte) (t : Nat) :
    frameError frame_size frame1 frame0 t = frameError frame_size frame0 frame1 t := by
  unfold frameError
  rw [← List.zip_swap frame0 frame1, ← List.map_take, foldl_addSqDiff_swap]

/-- The frame loop counts and accumulates the same when the two streams are
exchanged. -/
theorem frameLoopAux_swap (frame_size : Int) :
    ∀ (remaining : Nat) (s s2 : LoopState),
      s.number_of_frames = s2.number_of_frames → s.total_sq_error = s2.total_sq_error →
      s.file0 = s2.file1 → s.file1 = s2.file0 →
      (frameLoopAux frame_size remaining s).number_of_frames
          = (frameLoopAux frame_size remaining s2).number_of_frames ∧
      (frameLoopAux frame_size remaining s).total_sq_error
          = (frameLoopAux frame_size remaining s2).total_sq_error := by
  intro remaining
  induction remaining with
  | zero =>
    intro s s2 hn ht _ _
    exact ⟨hn, ht⟩
  | succ k ih =>
    intro s s2 hn ht h0 h1
    rw [frameLoopAux, frameLoopAux]
    simp only [h0, h1]
    by_cases ha : (fread s2.file1 (toSizeT frame_size)).1.length = toSizeT frame_size
    · by_cases hb : (fread s2.file0 (toSizeT frame_size)).1.length = toSizeT frame_size
      · rw [if_pos ha, if_pos hb, if_pos hb, if_pos ha]
        exact ih _ _ (by simp only [hn]) (by simp only [ht, frameError_swap]) rfl rfl
      · rw [if_pos ha, if_neg hb, if_neg hb]
        exact ⟨hn, ht⟩
    · by_cases hb : (fread s2.file0 (toSizeT frame_size)).1.length = toSizeT frame_size
      · rw [if_neg ha, if_pos hb, if_neg ha]
        exact ⟨hn, ht⟩
      · rw [if_neg ha, if_neg hb]
        exact ⟨hn, ht⟩

theorem frameLoop_swap (frame_size max_frames : Int) (s s2 : LoopState)
    (hn : s.number_of_frames = s2.number_of_frames)
    (ht : s.total_sq_error = s2.total_sq_error) (h0 : s.file0 = s2.file1)
    (h1 : s.file1 = s2.file0) :
    (frameLoop frame_size max_frames s).number_of_frames
        = (frameLoop frame_size max_frames s2).number_of_frames ∧
    (frameLoop frame_size max_frames s).total_sq_error
        = (frameLoop frame_size max_frames s2).total_sq_error := by
  unfold frameLoop
  rw [hn]
  exact frameLoopAux_swap frame_size (max_frames - s2.number_of_frames).toNat s s2 hn ht h0 h1

/-- When `stat` succeeds on both paths or fails on both, the two sizes that
`main` compares are exchanged along with the paths. -/
theorem fileSize_swap (w : World) (prog file0 file1 : String) (rest : List String)
    (hstat : (w.stat file0).isSome = (w.stat file1).isSome) :
    fileSize0 w (prog :: file1 :: file0 :: rest) = fileSize1 w (prog :: file0 :: file1 :: rest) ∧
    fileSize1 w (prog :: file1 :: file0 :: rest) = fileSize0 w (prog :: file0 :: file1 :: rest) := by
  have e1 : (prog :: file0 :: file1 :: rest).getD 1 "" = file0 := rfl
  have e2 : (prog :: file0 :: file1 :: rest).getD 2 "" = file1 := rfl
  have e3 : (prog :: file1 :: file0 :: rest).getD 1 "" = file1 := rfl
  have e4 : (prog :: file1 :: file0 :: rest).getD 2 "" = file0 := rfl
  unfold fileSize0 fileSize1 get_file_size st_size
  rw [e1, e2, e3, e4]
  cases h0 : w.stat file0 <;> cases h1 : w.stat file1 <;> simp_all

/-- The measurement is symmetric in its two files wherever the size query is:
when `stat` succeeds on both paths (or fails on both), the run with the two
paths exchanged has the same exit status, the same number of frames processed,
the same accumulated squared error and prints the same value. -/
theorem symmetric_of_stat (w : World) (prog file0 file1 : String) (rest : List String)
    (hstat : (w.stat file0).isSome = (w.stat file1).isSome) :
    outcome (main w (prog :: file0 :: file1 :: rest))
      = outcome (main w (prog :: file1 :: file0 :: rest)) := by
  obtain ⟨hs0, hs1⟩ := fileSize_swap w prog file0 file1 rest hstat
  have hlen : (prog :: file1 :: file0 :: rest).length = (prog :: file0 :: file1 :: rest).length :=
    rfl
  have hw : parseWidth (prog :: file1 :: file0 :: rest)
      = parseWidth (prog :: file0 :: file1 :: rest) := rfl
  have hh : parseHeight (prog :: file1 :: file0 :: rest)
      = parseHeight (prog :: file0 :: file1 :: rest) := rfl
  have hm : parseMaxFrames (prog :: file1 :: file0 :: rest)
      = parseMaxFrames (prog :: file0 :: file1 :: rest) := rfl
  have e1 : (prog :: file0 :: file1 :: rest).getD 1 "" = file0 := rfl
  have e2 : (prog :: file0 :: file1 :: rest).getD 2 "" = file1 := rfl
  have e3 : (prog :: file1 :: file0 :: rest).getD 1 "" = file1 := rfl
  have e4 : (prog :: file1 :: file0 :: rest).getD 2 "" = file0 := rfl
  unfold main
  rw [hs0, hs1, hlen, hw, hh, hm, e1, e2, e3, e4]
  by_cases hl : (prog :: file0 :: file1 :: rest).length < 6
  · rw [if_pos hl, if_pos hl]
    rfl
  rw [if_neg hl, if_neg hl]
  simp only []
  by_cases h2 : parseWidth (prog :: file0 :: file1 :: rest) < 1
      ∨ parseHeight (prog :: file0 :: file1 :: rest) < 1
  · rw [if_pos h2, if_pos h2]
    rfl
  rw [if_neg h2, if_neg h2]
  by_cases h3 : fileSize0 w (prog :: file0 :: file1 :: rest) ≤ 0
      ∨ fileSize1 w (prog :: file0 :: file1 :: rest) ≤ 0
  · rw [if_pos h3, if_pos (Or.symm h3)]
    rfl
  rw [if_neg h3, if_neg (fun h => h3 (Or.symm h))]
  by_cases h4 : fileSize0 w (prog :: file0 :: file1 :: rest)
      ≠ fileSize1 w (prog :: file0 :: file1 :: rest)
  · rw [if_pos h4, if_pos (Ne.symm h4)]
    rfl
  rw [if_neg h4, if_neg (fun h => h4 (Ne.symm h))]
  have heq : fileSize1 w (prog :: file0 :: file1 :: rest)
      = fileSize0 w (prog :: file0 :: file1 :: rest) := (not_not.mp h4).symm
  by_cases h5 : frameSize (parseWidth (prog :: file0 :: file1 :: rest))
      (parseHeight (prog :: file0 :: file1 :: rest)) = 0
  · rw [if_pos h5, if_pos h5]
    rfl
  rw [if_neg h5, if_neg h5, heq]
  by_cases h6 : Int.tmod (fileSize0 w (prog :: file0 :: file1 :: rest))
      (frameSize (parseWidth (prog :: file0 :: file1 :: rest))
        (parseHeight (prog :: file0 :: file1 :: rest))) ≠ 0
  · rw [if_pos h6, if_pos h6]
    rfl
  rw [if_neg h6, if_neg h6]
  cases w.fopen file0 with
  | none =>
    cases w.fopen file1 with
    | none => rfl
    | some data1 => rfl
  | some data0 =>
    cases w.fopen file1 with
    | none => rfl
    | some data1 =>
      simp only []
      by_cases h7 : w.calloc_ok 0 = false
      · rw [if_pos h7, if_pos h7]
        rfl
      rw [if_neg h7, if_neg h7]
      by_cases h8 : w.calloc_ok 1 = false
      · rw [if_pos h8, if_pos h8]
        rfl
      rw [if_neg h8, if_neg h8]
      apply outcome_report_congr
      · refine (frameLoop_swap _ _ _ _ ?_ ?_ ?_ ?_).1 <;> rfl
      · refine (frameLoop_swap _ _ _ _ ?_ ?_ ?_ ?_).2 <;> rfl

/-- C20, the code at the failing input: width 2, height 2, `max_frames` 1, the
path `"a"` of a file of six bytes and the path `"missing"` of no file.
With `"a"` first, the failed `stat` of the second call leaves in `st.st_size`
the 6 that the first call stored: both sizes are 6, the size checks pass and the
run fails at `fopen` with -3. With `"missing"` first, the first size is the
converted stack content and the second is 6: the run returns -2, unless the
stack happened to hold a value that converts to 6. The exchanged runs differ. -/
theorem swapped_paths_differ (garbage : Int) :
    fileSize0 (oneFile garbage) ["psnr", "a", "missing", "2", "2", "1"] = 6 ∧
    fileSize1 (oneFile garbage) ["psnr", "a", "missing", "2", "2", "1"] = 6 ∧
    (main (oneFile garbage) ["psnr", "a", "missing", "2", "2", "1"]).return_status
      = some (-3) ∧
    fileSize0 (oneFile garbage) ["psnr", "missing", "a", "2", "2", "1"] = wrap32 garbage ∧
    fileSize1 (oneFile garbage) ["psnr", "missing", "a", "2", "2", "1"] = 6 ∧
    (main (oneFile garbage) ["psnr", "missing", "a", "2", "2", "1"]).return_status
      = (if wrap32 garbage = 6 then some (-3) else some (-2)) ∧
    (main (oneFile 0) ["psnr", "missing", "a", "2", "2", "1"]).return_status = some (-2) ∧
    outcome (main (oneFile 0) ["psnr", "a", "missing", "2", "2", "1"])
      ≠ outcome (main (oneFile 0) ["psnr", "missing", "a", "2", "2", "1"]) := by
  have hs0 : fileSize0 (oneFile garbage) ["psnr", "missing", "a", "2", "2", "1"]
      = wrap32 garbage := rfl
  have hs1 : fileSize1 (oneFile garbage) ["psnr", "missing", "a", "2", "2", "1"] = 6 := rfl
  refine ⟨rfl, rfl, rfl, hs0, hs1, ?_, by decide, by decide⟩
  unfold main
  rw [hs0, hs1]
  generalize wrap32 garbage = x
  rw [if_neg (by decide), if_neg (by decide)]
  by_cases h3 : x ≤ 0
  · rw [if_pos (Or.inl h3), if_neg (by omega)]
    rfl
  · rw [if_neg (by omega)]
    by_cases h4 : x = 6
    · subst h4
      rfl
    · rw [if_pos h4, if_neg h4]
      rfl

end Psnr
